import Mathlib

/-!
Playback controller and packet distributor of vivictpp.

A shallow embedding of `src/VivictPP.cc` (player state machine, frame advance,
audio feed, seek family) and `src/workers/PacketWorker.cc` (packet fan-out and the
seek command), followed by theorems about them.

Modelling conventions

* A C++ `double` is `Dbl`: either NaN or a finite value held as a rational; a rational
  that is not a binary64 value stands for the binary64 value nearest to it. Comparisons
  follow IEEE for NaN (every ordered comparison and `==` with a NaN operand is false).
  `Dbl.rnd` is the IEEE rounding to nearest, ties to even. `nextFrameDelay`, whose value
  is the frame timing, rounds after each operation as the machine does; the sums
  `pts + delta` and the audio feed arithmetic are kept exact. Infinities are outside the
  model.
* `int` and `int64_t` values are `Int`; storing a value in an `int` wraps it modulo 2^32
  (`wrapInt32`). The conversion `(int) x` of a double is truncation toward zero; for a
  value outside the range of `int` it is undefined in C++, and `Dbl.toInt32` takes what
  x86-64 yields there, INT_MIN.
* The collaborators (frame buffers behind `videoInputs`, the audio output, the sync
  clock, the event scheduler) are not part of the embedded sources. Every call made to
  them is appended to a chronological `Trace`; the value returned by a query is given
  by a `World`, a family of functions of the trace so far. Since the queries are
  themselves recorded, a `World` may answer the same question differently each time
  it is asked (frames arriving from decoder threads, wall-clock time passing).
-/

namespace Vivictpp

/-! ## Numbers -/

/-- A C++ double: NaN or a finite rational value. -/
inductive Dbl where
  | nan : Dbl
  | fin (q : ℚ) : Dbl
deriving DecidableEq

namespace Dbl

/-- The test `isnan(x)`. -/
def isnan : Dbl → Bool
  | nan => true
  | fin _ => false

/-- Addition `x + y`; NaN propagates. -/
def add : Dbl → Dbl → Dbl
  | fin a, fin b => fin (a + b)
  | _, _ => nan

/-- Subtraction `x - y`; NaN propagates. -/
def sub : Dbl → Dbl → Dbl
  | fin a, fin b => fin (a - b)
  | _, _ => nan

/-- Multiplication `x * y`; NaN propagates. -/
def mul : Dbl → Dbl → Dbl
  | fin a, fin b => fin (a * b)
  | _, _ => nan

/-- The comparison `x < y`; false when an operand is NaN. -/
def lt : Dbl → Dbl → Bool
  | fin a, fin b => decide (a < b)
  | _, _ => false

/-- The comparison `x > y`; false when an operand is NaN. -/
def gt (x y : Dbl) : Bool := lt y x

/-- The comparison `x == y` of C++; false when an operand is NaN. -/
def eq : Dbl → Dbl → Bool
  | fin a, fin b => decide (a = b)
  | _, _ => false

/-- Division `x / y`; NaN propagates. A zero divisor gives an infinity or NaN in IEEE;
infinities are outside the model and the result is NaN here. -/
def div : Dbl → Dbl → Dbl
  | fin a, fin b => if b = 0 then nan else fin (a / b)
  | _, _ => nan

/-- The function `std::max(x, y)` on doubles: `y` when `x < y`, else `x`. -/
def max (x y : Dbl) : Dbl := if lt x y then y else x

/-- The implicit conversion of an `int` to `double`. -/
def ofInt (i : Int) : Dbl := fin (i : ℚ)

/-- Truncation toward zero of a rational. -/
def truncQ (q : ℚ) : Int := if 0 ≤ q then ⌊q⌋ else -⌊-q⌋

/-- The conversion `(int) x`: truncation toward zero. Converting NaN is undefined in
C++; the model fixes the result 0 for it. -/
def toInt : Dbl → Int
  | fin q => truncQ q
  | nan => 0

/-- The integer nearest to `x`, the even one of the two when `x` lies halfway. -/
def roundHalfEven (x : ℚ) : Int :=
  if x - ⌊x⌋ < 1 / 2 then ⌊x⌋
  else if 1 / 2 < x - ⌊x⌋ then ⌊x⌋ + 1
  else if ⌊x⌋ % 2 = 0 then ⌊x⌋ else ⌊x⌋ + 1

/-- The spacing of the binary64 values around a positive `a`: `2 ^ (e - 52)` where
`2 ^ e ≤ a < 2 ^ (e + 1)`, and the subnormal spacing `2 ^ (-1074)` below `2 ^ (-1022)`. -/
def quantum (a : ℚ) : ℚ := (2 : ℚ) ^ (Max.max (Int.log 2 a) (-1022) - 52)

/-- The binary64 value nearest to the rational `q` (IEEE 754 round to nearest, ties to
even). Where IEEE overflows to an infinity the result is NaN, the model having no
infinities. -/
def rndQ (q : ℚ) : Dbl :=
  if q = 0 then fin 0
  else if (2 : ℚ) ^ (1024 : ℕ) ≤ (roundHalfEven (|q| / quantum |q|) : ℚ) * quantum |q| then nan
  else if q < 0 then fin (-((roundHalfEven (|q| / quantum |q|) : ℚ) * quantum |q|))
  else fin ((roundHalfEven (|q| / quantum |q|) : ℚ) * quantum |q|)

/-- The binary64 value that a modelled double stands for; the result of a double
operation is `rnd` of the exact result. -/
def rnd : Dbl → Dbl
  | fin q => rndQ q
  | nan => nan

/-- The conversion `(int) x` with the range of `int`: truncation toward zero when the
result fits in 32 bits. Otherwise, and for NaN, the conversion is undefined in C++; the
model takes the value x86-64 yields, INT_MIN. -/
def toInt32 : Dbl → Int
  | fin q => if -2 ^ 31 ≤ truncQ q ∧ truncQ q < 2 ^ 31 then truncQ q else -2 ^ 31
  | nan => -2 ^ 31

end Dbl

/-- The value of an `int` that is assigned the integer `x`: `x` wrapped into
`[-2^31, 2^31)` modulo 2^32. -/
def wrapInt32 (x : Int) : Int := (x + 2 ^ 31) % 2 ^ 32 - 2 ^ 31

/-! ## Player state -/

/-- The enumeration `PlaybackState`. -/
inductive PlaybackState where
  | PLAYING
  | STOPPED
  | SEEKING
deriving DecidableEq

/-- The record `PlayerState`, without its sync clock: the clock `avSync` reads wall
time and is reached through the `World`. -/
structure PlayerState where
  playbackState : PlaybackState
  pts : Dbl
  nextPts : Dbl
  seeking : Bool
  stepFrame : Int
  lastFrameAdvance : Nat
deriving DecidableEq

/-- Embedding of `PlayerState::togglePlaying` (VivictPP.cc 24-39): the updated state and the
returned `playbackState`. -/
def PlayerState.togglePlaying (s : PlayerState) : PlayerState × PlaybackState :=
  let s1 : PlayerState :=
    match s.playbackState with
    | PlaybackState.PLAYING => { s with playbackState := PlaybackState.STOPPED }
    | PlaybackState.STOPPED => { s with playbackState := PlaybackState.PLAYING }
    | PlaybackState.SEEKING => s
  (s1, s1.playbackState)

/-! ## Collaborators -/

/-- An audio frame handed from the audio frame buffer to the audio output. -/
abbrev Frame := Nat

/-- One call made by the controller to a collaborator. -/
inductive Call where
  -- sync clock (state.avSync)
  | diffMicros (micros : Int)
  | clock
  | playbackStart (micros : Int)
  -- videoInputs
  | nextPts
  | previousPts
  | ptsInRange (p : Dbl)
  | stepForward (p : Dbl)
  | stepBackward (p : Dbl)
  | seek (p : Dbl)
  | dropIfFullAndNextOutOfRange (p : Dbl) (n : Int)
  -- videoInputs.audioFrames()
  | audioPtsInRange (p : Dbl)
  | audioNextPts
  | audioCurrentPts
  | audioStepForward (p : Dbl)
  | audioStepBackward (p : Dbl)
  | audioFirst
  -- audioOutput
  | queueDuration
  | outputCurrentPts
  | queueAudio (f : Frame)
  | clearQueue
  | start
  | stop
  -- eventScheduler
  | scheduleAdvanceFrame (delay : Int)
  | scheduleRefreshDisplay (delay : Int)
  | scheduleQueueAudio (delay : Int)
deriving DecidableEq

/-- The calls made so far, oldest first. -/
abbrev Trace := List Call

/-- The answers of the collaborators, each a function of the calls made so far, and
the two conversions of `TimeUtils.hh`, which are not among the embedded sources. -/
structure World where
  toMicros : Dbl → Int
  toMillis : Int → Int
  diffMicros : Trace → Int → Int
  clock : Trace → Int
  nextPts : Trace → Dbl
  previousPts : Trace → Dbl
  ptsInRange : Trace → Dbl → Bool
  audioPtsInRange : Trace → Dbl → Bool
  audioNextPts : Trace → Dbl
  audioCurrentPts : Trace → Dbl
  audioFirst : Trace → Frame
  queueDuration : Trace → Dbl
  outputCurrentPts : Trace → Dbl

/-- The controller object `VivictPP`: its player state, the frame duration, whether
`audioOutput` is non-null, and the calls it has made. -/
structure VivictPP where
  state : PlayerState
  frameDuration : Dbl
  hasAudioOutput : Bool
  trace : Trace

namespace VivictPP

/-- Record a call to a collaborator. -/
def emit (v : VivictPP) (c : Call) : VivictPP := { v with trace := v.trace ++ [c] }

/-- The correction term `corr` of `nextFrameDelay` (VivictPP.cc 67-72), computed from
the answer of `avSync.diffMicros`: the result of `toMillis` is stored in the `int corr`
and then clamped. -/
def clampCorr (w : World) (videoDiff : Int) : Int :=
  let corr := wrapInt32 (w.toMillis videoDiff)
  let corr := if corr > 30 then 30 else corr
  if corr < -30 then -30 else corr

/-- The double expression `(state.nextPts - state.pts) * 1000 + corr` of line 73:
`pts` and `nextPts` are read as binary64 values and the difference, the product and the
sum are each rounded; 1000 and `corr` are integers that binary64 holds exactly. -/
def delayExpr (pts nextPts : Dbl) (corr : Int) : Dbl :=
  let diff := Dbl.rnd ((Dbl.rnd nextPts).sub (Dbl.rnd pts))
  let prod := Dbl.rnd (diff.mul (Dbl.fin 1000))
  Dbl.rnd (prod.add (Dbl.ofInt corr))

/-- Embedding of `VivictPP::nextFrameDelay` (VivictPP.cc 65-77): the delay, and the controller with
the two clock queries recorded. -/
def nextFrameDelay (w : World) (v : VivictPP) : Int × VivictPP :=
  let videoDiff := w.diffMicros v.trace (w.toMicros v.state.pts)
  let v1 := v.emit (Call.diffMicros (w.toMicros v.state.pts))
  let v2 := v1.emit Call.clock
  let corr := clampCorr w videoDiff
  let delay := max 5 (Dbl.toInt32 (delayExpr v.state.pts v.state.nextPts corr))
  (delay, v2)

/-- Embedding of `VivictPP::audioSeek` (VivictPP.cc 220-230). -/
def audioSeek (w : World) (v : VivictPP) (pts : Dbl) : VivictPP :=
  if !v.hasAudioOutput then v
  else
    let v1 := v.emit Call.clearQueue
    let np := w.audioNextPts v1.trace
    let v2 := v1.emit Call.audioNextPts
    if np.lt pts then v2.emit (Call.audioStepForward pts)
    else v2.emit (Call.audioStepBackward pts)

/-- The loop of `queueAudio` (VivictPP.cc 139-146) with `n` iterations left before
`c` reaches 5: the final `queueDuration` and the controller. -/
def queueAudioLoop (w : World) : Nat → Dbl → Dbl → VivictPP → Dbl × VivictPP
  | 0, _, queueDuration, v => (queueDuration, v)
  | n + 1, nextPts, queueDuration, v =>
    if nextPts.isnan then (queueDuration, v)
    else
      let prevPts := w.audioCurrentPts v.trace
      let v1 := v.emit Call.audioCurrentPts
      let v2 := v1.emit (Call.audioStepForward nextPts)
      let queueDuration1 := queueDuration.add (nextPts.sub prevPts)
      let frame := w.audioFirst v2.trace
      let v3 := v2.emit Call.audioFirst
      let v4 := v3.emit (Call.queueAudio frame)
      let nextPts1 := w.audioNextPts v4.trace
      let v5 := v4.emit Call.audioNextPts
      queueAudioLoop w n nextPts1 queueDuration1 v5

/-- The feed delay `std::max(1, (int) ((queueDuration - 0.04) * 1000))`. -/
def feedDelay (queueDuration : Dbl) : Int :=
  max 1 (Dbl.toInt ((queueDuration.sub (Dbl.fin (4 / 100))).mul (Dbl.fin 1000)))

/-- Embedding of `VivictPP::queueAudio` (VivictPP.cc 122-154). -/
def queueAudio (w : World) (v : VivictPP) : VivictPP :=
  if !v.hasAudioOutput then v
  else
    let queueDuration := w.queueDuration v.trace
    let v1 := v.emit Call.queueDuration
    let v2 := v1.emit Call.outputCurrentPts
    if v2.state.playbackState ≠ PlaybackState.PLAYING then v2
    else if queueDuration.gt (Dbl.fin (2 / 10)) then
      v2.emit (Call.scheduleQueueAudio (feedDelay queueDuration))
    else
      let nextPts := w.audioNextPts v2.trace
      let v3 := v2.emit Call.audioNextPts
      if !nextPts.isnan then
        let r := queueAudioLoop w 5 nextPts queueDuration v3
        r.2.emit (Call.scheduleQueueAudio (feedDelay r.1))
      else
        v3.emit (Call.scheduleQueueAudio 10)

/-- Embedding of `VivictPP::togglePlaying` (VivictPP.cc 156-174): the returned `playbackState` and
the controller. -/
def togglePlaying (w : World) (v : VivictPP) : PlaybackState × VivictPP :=
  let r := v.state.togglePlaying
  let v0 : VivictPP := { v with state := r.1 }
  if r.2 = PlaybackState.PLAYING then
    let v1 := audioSeek w v0 v0.state.pts
    let v2 := queueAudio w v1
    let v3 := if v2.hasAudioOutput then v2.emit Call.start else v2
    let v4 := v3.emit (Call.playbackStart (w.toMicros v3.state.pts))
    let v5 : VivictPP :=
      if v4.state.nextPts.eq v4.state.pts then
        { v4 with state := { v4.state with nextPts := v4.state.pts.add v4.frameDuration } }
      else v4
    let v6 := v5.emit (Call.scheduleAdvanceFrame 0)
    (v6.state.playbackState, v6)
  else
    let v1 := if v0.hasAudioOutput then v0.emit Call.stop else v0
    (v1.state.playbackState, v1)

/-- The readiness test of `advanceFrame` and `seek` (VivictPP.cc 88 and 203-204),
`videoInputs.ptsInRange(nextPts) && (!audioOutput || audioFrames().ptsInRange(nextPts))`
with its short-circuit evaluation: the outcome and the controller with the queries
recorded. -/
def checkReady (w : World) (v : VivictPP) : Bool × VivictPP :=
  let inVideo := w.ptsInRange v.trace v.state.nextPts
  let v1 := v.emit (Call.ptsInRange v.state.nextPts)
  if !inVideo then (false, v1)
  else if !v1.hasAudioOutput then (true, v1)
  else
    let inAudio := w.audioPtsInRange v1.trace v1.state.nextPts
    (inAudio, v1.emit (Call.audioPtsInRange v1.state.nextPts))

/-- Embedding of `VivictPP::seek` (VivictPP.cc 200-218). -/
def seek (w : World) (v : VivictPP) (nextPts : Dbl) : VivictPP :=
  let v0 : VivictPP := { v with state := { v.state with nextPts := nextPts } }
  let r := checkReady w v0
  let v1 := r.2
  if r.1 then
    if v1.state.playbackState = PlaybackState.PLAYING then
      let v2 := (togglePlaying w v1).2
      let v3 := audioSeek w v2 v2.state.nextPts
      (togglePlaying w v3).2
    else
      let v2 := audioSeek w v1 v1.state.nextPts
      v2.emit (Call.scheduleAdvanceFrame 5)
  else
    let v2 : VivictPP := { v1 with state := { v1.state with seeking := true } }
    let v3 := v2.emit (Call.seek v2.state.nextPts)
    v3.emit (Call.scheduleAdvanceFrame 5)

/-- Embedding of `VivictPP::seekRelative` (VivictPP.cc 192-198). -/
def seekRelative (w : World) (v : VivictPP) (deltaT : Dbl) : VivictPP :=
  if v.state.seeking then seek w v (v.state.nextPts.add deltaT)
  else seek w v (v.state.pts.add deltaT)

/-- Embedding of `VivictPP::seekPreviousFrame` (VivictPP.cc 176-182). -/
def seekPreviousFrame (w : World) (v : VivictPP) : VivictPP :=
  let previousPts := w.previousPts v.trace
  let v1 := v.emit Call.previousPts
  let previousPts := if previousPts.isnan then v1.state.pts.sub v1.frameDuration else previousPts
  seek w v1 previousPts

/-- Embedding of `VivictPP::seekNextFrame` (VivictPP.cc 184-190). -/
def seekNextFrame (w : World) (v : VivictPP) : VivictPP :=
  let nextPts := w.nextPts v.trace
  let v1 := v.emit Call.nextPts
  let nextPts := if nextPts.isnan then v1.state.pts.add v1.frameDuration else nextPts
  seek w v1 nextPts

/-- Embedding of `VivictPP::seekFrame` (VivictPP.cc 232). -/
def seekFrame (v : VivictPP) (delta : Int) : VivictPP :=
  { v with state := { v.state with stepFrame := delta } }

/-- Embedding of `VivictPP::onQuit` (VivictPP.cc 234-238). -/
def onQuit (v : VivictPP) : VivictPP :=
  if v.hasAudioOutput then v.emit Call.stop else v

/-- Lines 82-87 of `advanceFrame`: resolve an unknown `nextPts` from the frame buffer. -/
def resolveNextPts (w : World) (v : VivictPP) : VivictPP :=
  if v.state.nextPts.isnan then
    let np := w.nextPts v.trace
    let v1 : VivictPP := { v.emit Call.nextPts with state := { v.state with nextPts := np } }
    if !np.isnan then
      let r := nextFrameDelay w v1
      r.2.emit (Call.scheduleAdvanceFrame r.1)
    else v1
  else v

/-- Lines 102-113 of `advanceFrame`: what is done after the commit while PLAYING. -/
def scheduleNext (w : World) (v : VivictPP) (wasSeeking : Bool) : VivictPP :=
  if v.state.playbackState = PlaybackState.PLAYING then
    let v1 := if wasSeeking then v.emit (Call.playbackStart (w.toMicros v.state.pts)) else v
    let np := w.nextPts v1.trace
    let v2 : VivictPP := { v1.emit Call.nextPts with state := { v1.state with nextPts := np } }
    if np.isnan then v2.emit (Call.scheduleAdvanceFrame 5)
    else
      let r := nextFrameDelay w v2
      r.2.emit (Call.scheduleAdvanceFrame r.1)
  else v

/-- Embedding of `VivictPP::advanceFrame` (VivictPP.cc 79-120). -/
def advanceFrame (w : World) (v : VivictPP) : VivictPP :=
  let v0 := resolveNextPts w v
  let r := checkReady w v0
  let v1 := r.2
  if r.1 then
    let v2 := if v1.state.seeking then audioSeek w v1 v1.state.nextPts else v1
    let v3 :=
      if v2.state.nextPts.gt v2.state.pts || v2.state.seeking then
        v2.emit (Call.stepForward v2.state.nextPts)
      else v2.emit (Call.stepBackward v2.state.nextPts)
    let wasSeeking := v3.state.seeking
    let v4 : VivictPP :=
      { v3 with state := { v3.state with pts := v3.state.nextPts, seeking := false } }
    let v5 := scheduleNext w v4 wasSeeking
    v5.emit (Call.scheduleRefreshDisplay 0)
  else
    let v2 := v1.emit (Call.dropIfFullAndNextOutOfRange v1.state.pts (if v1.state.seeking then 0 else 1))
    v2.emit (Call.scheduleAdvanceFrame 5)

end VivictPP

/-! ## Construction -/

/-- The fields of `VideoMetadata` read by the constructor. -/
structure VideoMetadata where
  startTime : Dbl
  frameRate : Dbl

/-- A source configuration, named by an identifier. -/
abbrev SourceConfig := Nat

/-- The fields of `VivictPPConfig` read by the constructor. -/
structure VivictPPConfig where
  sourceConfigs : List SourceConfig
  disableAudio : Bool

/-- What the constructor is given by its collaborators: the value-initialised
`PlayerState` (its defaults are in `VivictPP.hh`, not among the sources), the answer of
`videoInputs.hasAudio()`, whether `audioOutputFactory.create` returned a non-null
output, and `videoInputs.metadata()`, one row of video streams per source. -/
structure Startup where
  initial : PlayerState
  hasAudio : Bool
  outputCreated : Bool
  metadata : List (List VideoMetadata)

/-- The element `metadata[i][0]`; `none` where the C++ indexing is out of range. -/
def metadataAt (metadata : List (List VideoMetadata)) (i : Nat) : Option VideoMetadata :=
  match metadata[i]? with
  | some row => row.head?
  | none => none

/-- The constructor `VivictPP::VivictPP` (VivictPP.cc 41-63); `none` where it indexes
`metadata` out of range. -/
def VivictPP.new (config : VivictPPConfig) (e : Startup) : Option VivictPP :=
  let hasAudioOutput := !config.disableAudio && e.hasAudio && e.outputCreated
  match metadataAt e.metadata 0 with
  | none => none
  | some m0 =>
    let state : PlayerState := { e.initial with pts := m0.startTime, nextPts := m0.startTime }
    if config.sourceConfigs.length = 1 then
      some { state := state, frameDuration := Dbl.div (Dbl.fin 1) m0.frameRate,
             hasAudioOutput := hasAudioOutput, trace := [] }
    else
      match metadataAt e.metadata 1 with
      | none => none
      | some m1 =>
        some { state := state,
               frameDuration := Dbl.div (Dbl.fin 1) (Dbl.max m0.frameRate m1.frameRate),
               hasAudioOutput := hasAudioOutput, trace := [] }

/-! ## Packet distributor (`src/workers/PacketWorker.cc`) -/

/-- A registered decode stage (a `DecoderWorker`), named by an identifier. -/
abbrev Stage := Nat

/-- A container packet, named by an identifier. -/
abbrev Packet := Nat

/-- A position of type `vivictpp::time::Time`. -/
abbrev Time := Int

/-- A seek callback (`vivictpp::SeekCallback`), named by an identifier. -/
abbrev Callback := Nat

/-- One call made by the packet worker, with the value it returned where the worker
looks at it. -/
inductive PCall where
  | usleep (micros : Nat)
  | nextPacket
  | offerData (dw : Stage) (k : Packet) (timeoutMs : Nat) (accepted : Bool)
  | unref (k : Packet)
  | sourceSeek (pos : Time)
  | stageSeek (dw : Stage) (pos : Time) (cb : Callback)
  | callback (cb : Callback) (pos : Time) (error : Bool)
deriving DecidableEq

/-- The calls of the packet worker so far, oldest first. -/
abbrev PTrace := List PCall

/-- The answers of the packet source and of the decode stages, as functions of the
calls made so far, and the constant `vivictpp::time::NO_TIME` of `time/Time.hh`.
`seekRaises` tells whether `formatHandler.seek(pos)` raises a `std::runtime_error`. -/
structure PWorld where
  NO_TIME : Time
  nextPacket : PTrace → Option Packet
  offerData : PTrace → Stage → Packet → Bool
  seekRaises : PTrace → Time → Bool

/-- The object `PacketWorker`: the registered stages in registration order, the held
packet (`none` for `nullptr`) and the calls made so far. -/
structure PacketWorker where
  decoderWorkers : List Stage
  currentPacket : Option Packet
  trace : PTrace

namespace PacketWorker

/-- Record a call. -/
def emit (pw : PacketWorker) (c : PCall) : PacketWorker := { pw with trace := pw.trace ++ [c] }

/-- Modelled from the spec: `hasDecoders()` is declared in `PacketWorker.hh`, which is
not among the sources; section 4.4 reads "if no stage is registered, idle". -/
def hasDecoders (pw : PacketWorker) : Bool := !pw.decoderWorkers.isEmpty

/-- Embedding of `PacketWorker::unrefCurrentPacket` (PacketWorker.cc 86-91). -/
def unrefCurrentPacket (pw : PacketWorker) : PacketWorker :=
  match pw.currentPacket with
  | some k => { pw.emit (PCall.unref k) with currentPacket := none }
  | none => pw

/-- The loop of `doWork` (PacketWorker.cc 63-71) over the stages still to be offered
packet `k`: `false` when a stage rejected (the `return` inside the loop), and the
worker with the offers recorded. -/
def offerAll (w : PWorld) (k : Packet) : List Stage → PacketWorker → Bool × PacketWorker
  | [], pw => (true, pw)
  | dw :: rest, pw =>
    if w.offerData pw.trace dw k then
      offerAll w k rest (pw.emit (PCall.offerData dw k 2 true))
    else
      (false, pw.emit (PCall.offerData dw k 2 false))

/-- Embedding of `PacketWorker::doWork` (PacketWorker.cc 50-75). -/
def doWork (w : PWorld) (pw : PacketWorker) : PacketWorker :=
  if !pw.hasDecoders then pw.emit (PCall.usleep 5000)
  else
    let pw1 : PacketWorker :=
      if pw.currentPacket = none then
        { pw.emit PCall.nextPacket with currentPacket := w.nextPacket pw.trace }
      else pw
    match pw1.currentPacket with
    | none => pw1.emit (PCall.usleep 5000)
    | some k =>
      let r := offerAll w k pw1.decoderWorkers pw1
      if r.1 then unrefCurrentPacket r.2 else r.2

/-- The loop of the seek command (PacketWorker.cc 125-127). Modelled from the spec:
`DecoderWorker::seek` is not among the sources; it is the asynchronous seek request of a
decode stage (sections 2 and 6) and returns without raising. -/
def seekStages (pos : Time) (cb : Callback) : List Stage → PacketWorker → PacketWorker
  | [], pw => pw
  | dw :: rest, pw => seekStages pos cb rest (pw.emit (PCall.stageSeek dw pos cb))

/-- The body of the command built by `PacketWorker::seek` (PacketWorker.cc 120-132):
the value it returns and the worker afterwards. -/
def seekCommand (w : PWorld) (pw : PacketWorker) (pos : Time) (cb : Callback) :
    Bool × PacketWorker :=
  let raises := w.seekRaises pw.trace pos
  let pw1 := pw.emit (PCall.sourceSeek pos)
  if raises then
    (true, pw1.emit (PCall.callback cb w.NO_TIME true))
  else
    let pw2 := unrefCurrentPacket pw1
    (true, seekStages pos cb pw2.decoderWorkers pw2)

end PacketWorker

/-! ## Reading a trace -/

/-- The calls recorded in `after` beyond the first `before.length`. -/
def callsSince {α : Type} (before after : List α) : List α := after.drop before.length

/-- Whether a call is `scheduleAdvanceFrame`. -/
def Call.isScheduleAdvanceFrame : Call → Bool
  | Call.scheduleAdvanceFrame _ => true
  | _ => false

/-- Whether a call is `scheduleRefreshDisplay`. -/
def Call.isScheduleRefreshDisplay : Call → Bool
  | Call.scheduleRefreshDisplay _ => true
  | _ => false

/-- Whether a call steps the video frame buffers (`videoInputs.stepForward` or
`videoInputs.stepBackward`). -/
def Call.isVideoStep : Call → Bool
  | Call.stepForward _ => true
  | Call.stepBackward _ => true
  | _ => false

/-- Whether a call is the pipeline seek `videoInputs.seek`. -/
def Call.isSeek : Call → Bool
  | Call.seek _ => true
  | _ => false

/-- Whether a call is an offer of packet `k` that stage `dw` accepted. -/
def PCall.isAcceptedBy (dw : Stage) (k : Packet) : PCall → Bool
  | PCall.offerData d p _ true => decide (d = dw ∧ p = k)
  | _ => false

/-- Whether a call is an accepted offer. -/
def PCall.isAccepted : PCall → Bool
  | PCall.offerData _ _ _ true => true
  | _ => false

/-- Whether a call is a seek request to a stage. -/
def PCall.isStageSeek : PCall → Bool
  | PCall.stageSeek _ _ _ => true
  | _ => false

/-- Whether a call is an invocation of a seek callback. -/
def PCall.isCallback : PCall → Bool
  | PCall.callback _ _ _ => true
  | _ => false

/-- Whether `target` is contained in the video frame buffer and, when an audio output is
configured, in the audio frame buffer, as the controller `v` would be told now. -/
def targetBuffered (w : World) (v : VivictPP) (target : Dbl) : Bool :=
  w.ptsInRange v.trace target &&
    (!v.hasAudioOutput || w.audioPtsInRange (v.trace ++ [Call.ptsInRange target]) target)

/-- The queries made by the readiness test on `target`: the video buffer, and the audio
buffer when the video buffer contains it and an audio output is configured. -/
def readyQueries (w : World) (v : VivictPP) (target : Dbl) : List Call :=
  if w.ptsInRange v.trace target && v.hasAudioOutput then
    [Call.ptsInRange target, Call.audioPtsInRange target]
  else [Call.ptsInRange target]

/-- The controller after `n` further ticks of `advanceFrame`. -/
def ticks (w : World) : Nat → VivictPP → VivictPP
  | 0, v => v
  | n + 1, v => ticks w n (VivictPP.advanceFrame w v)

/-- Whether a call goes to the audio frame buffer or the audio output, or schedules the
next audio feed. -/
def Call.isAudio : Call → Bool
  | Call.audioPtsInRange _ => true
  | Call.audioNextPts => true
  | Call.audioCurrentPts => true
  | Call.audioStepForward _ => true
  | Call.audioStepBackward _ => true
  | Call.audioFirst => true
  | Call.queueDuration => true
  | Call.outputCurrentPts => true
  | Call.queueAudio _ => true
  | Call.clearQueue => true
  | Call.start => true
  | Call.stop => true
  | Call.scheduleQueueAudio _ => true
  | _ => false

/-- The trace `t2` continues `t1` with calls that all satisfy `P`. -/
def Extends (P : Call → Prop) (t1 t2 : Trace) : Prop :=
  ∃ l : List Call, t2 = t1 ++ l ∧ ∀ c ∈ l, P c

/-! ## Sample worlds and controllers -/

/-- A world in which nothing is buffered and the clock shows no drift; the two
conversions are those of seconds to microseconds and microseconds to milliseconds. -/
def World.still : World where
  toMicros := fun d => Dbl.toInt (d.mul (Dbl.fin 1000000))
  toMillis := fun m => Int.tdiv m 1000
  diffMicros := fun _ _ => 0
  clock := fun _ => 0
  nextPts := fun _ => Dbl.nan
  previousPts := fun _ => Dbl.nan
  ptsInRange := fun _ _ => false
  audioPtsInRange := fun _ _ => false
  audioNextPts := fun _ => Dbl.nan
  audioCurrentPts := fun _ => Dbl.nan
  audioFirst := fun _ => 0
  queueDuration := fun _ => Dbl.fin 0
  outputCurrentPts := fun _ => Dbl.nan

/-- A world like `World.still` whose clock is 3 * 10^12 microseconds ahead of the
video. -/
def World.drifted : World :=
  { World.still with diffMicros := fun _ _ => 3000000000000 }

/-- A world that reports every pts as buffered, in video and in audio. -/
def World.ready : World :=
  { World.still with ptsInRange := fun _ _ => true, audioPtsInRange := fun _ _ => true }

/-- A controller without audio output, 25 frames per second, with the given playback
state, `pts` and `nextPts`, no seek in flight and no call made yet. -/
def VivictPP.sample (ps : PlaybackState) (pts nextPts : Dbl) : VivictPP where
  state :=
    { playbackState := ps, pts := pts, nextPts := nextPts, seeking := false,
      stepFrame := 0, lastFrameAdvance := 0 }
  frameDuration := Dbl.fin (1 / 25)
  hasAudioOutput := false
  trace := []

/-- A world that reports every pts as buffered and answers 1/25 to
`videoInputs.nextPts()`. -/
def World.playing : World :=
  { World.ready with nextPts := fun _ => Dbl.fin (1 / 25) }

/-- A configuration with two sources and audio disabled, as in the playback test. -/
def VivictPPConfig.sample : VivictPPConfig where
  sourceConfigs := [0, 1]
  disableAudio := true

/-- A start-up with two sources of one video stream each, starting at 0 with 25 frames
per second, and a STOPPED initial state. -/
def Startup.sample : Startup where
  initial :=
    { playbackState := PlaybackState.STOPPED, pts := Dbl.fin 0, nextPts := Dbl.fin 0,
      seeking := false, stepFrame := 0, lastFrameAdvance := 0 }
  hasAudio := false
  outputCreated := false
  metadata := [[{ startTime := Dbl.fin 0, frameRate := Dbl.fin 25 }],
    [{ startTime := Dbl.fin 0, frameRate := Dbl.fin 25 }]]

/-- A packet source that is exhausted, with stage 0 accepting every offer and every other
stage reporting backpressure; the source seek does not raise. -/
def PWorld.onlyStageZero : PWorld where
  NO_TIME := -1
  nextPacket := fun _ => none
  offerData := fun _ dw _ => decide (dw = 0)
  seekRaises := fun _ _ => false

/-- A world like `PWorld.onlyStageZero` in which every stage accepts and the source
seek raises. -/
def PWorld.seekFails : PWorld where
  NO_TIME := -1
  nextPacket := fun _ => none
  offerData := fun _ _ _ => true
  seekRaises := fun _ _ => true

/-- A packet worker with stages 0 and 1 registered, holding packet 7, no call made. -/
def PacketWorker.sample : PacketWorker where
  decoderWorkers := [0, 1]
  currentPacket := some 7
  trace := []

/-! ## Basic facts -/

@[simp] theorem VivictPP.emit_state (v : VivictPP) (c : Call) : (v.emit c).state = v.state := rfl

@[simp] theorem VivictPP.emit_trace (v : VivictPP) (c : Call) :
    (v.emit c).trace = v.trace ++ [c] := rfl

@[simp] theorem VivictPP.emit_hasAudioOutput (v : VivictPP) (c : Call) :
    (v.emit c).hasAudioOutput = v.hasAudioOutput := rfl

@[simp] theorem VivictPP.emit_frameDuration (v : VivictPP) (c : Call) :
    (v.emit c).frameDuration = v.frameDuration := rfl

theorem VivictPP.clampCorr_eq (w : World) (d : Int) :
    VivictPP.clampCorr w d = max (-30) (min 30 (wrapInt32 (w.toMillis d))) := by
  unfold VivictPP.clampCorr
  simp only []
  split_ifs <;> omega

theorem wrapInt32_of_fits (x : Int) (h1 : -2 ^ 31 ≤ x) (h2 : x < 2 ^ 31) : wrapInt32 x = x := by
  unfold wrapInt32
  omega

/-! ## Frame delay -/

theorem int_log_two_eq (q : ℚ) (e : ℤ) (h1 : (2 : ℚ) ^ e ≤ q) (h2 : q < (2 : ℚ) ^ (e + 1)) :
    Int.log 2 q = e := by
  have hq : 0 < q := lt_of_lt_of_le (zpow_pos (by norm_num) e) h1
  apply le_antisymm
  · have := (Int.lt_zpow_iff_log_lt (b := 2) (by norm_num) hq).mp (by exact_mod_cast h2)
    omega
  · exact (Int.zpow_le_iff_le_log (b := 2) (by norm_num) hq).mp (by exact_mod_cast h1)

theorem roundHalfEven_eq (x : ℚ) (m : ℤ) (h : |x - m| < 1 / 2) : Dbl.roundHalfEven x = m := by
  rw [abs_lt] at h
  obtain ⟨h1, h2⟩ := h
  unfold Dbl.roundHalfEven
  by_cases hx : (m : ℚ) ≤ x
  · have hf : ⌊x⌋ = m := by
      rw [Int.floor_eq_iff]; constructor <;> linarith
    rw [hf, if_pos (by linarith)]
  · push_neg at hx
    have hf : ⌊x⌋ = m - 1 := by
      rw [Int.floor_eq_iff]; push_cast; constructor <;> linarith
    rw [hf]
    push_cast
    rw [if_neg (by linarith), if_pos (by linarith)]
    ring

/-- Evaluation of the rounding at a positive normal value: with `2 ^ e ≤ q < 2 ^ (e + 1)`,
the result is `m * 2 ^ (e - 52)` for the integer `m` nearer than one half to
`q / 2 ^ (e - 52)`. -/
theorem rndQ_eq (q : ℚ) (e m : ℤ) (h1 : (2 : ℚ) ^ e ≤ q) (h2 : q < (2 : ℚ) ^ (e + 1))
    (he : -1022 ≤ e) (hm : |q / (2 : ℚ) ^ (e - 52) - m| < 1 / 2)
    (hfin : (m : ℚ) * (2 : ℚ) ^ (e - 52) < (2 : ℚ) ^ (1024 : ℕ)) :
    Dbl.rndQ q = Dbl.fin ((m : ℚ) * (2 : ℚ) ^ (e - 52)) := by
  have hq : 0 < q := lt_of_lt_of_le (zpow_pos (by norm_num) e) h1
  have habs : |q| = q := abs_of_pos hq
  have hqu : Dbl.quantum q = (2 : ℚ) ^ (e - 52) := by
    unfold Dbl.quantum
    rw [int_log_two_eq q e h1 h2, max_eq_left he]
  unfold Dbl.rndQ
  rw [habs, hqu, roundHalfEven_eq _ m hm, if_neg (ne_of_gt hq), if_neg (not_le.mpr hfin),
    if_neg (not_lt.mpr (le_of_lt hq))]

theorem rndQ_zero : Dbl.rndQ 0 = Dbl.fin 0 := by
  simp [Dbl.rndQ]

theorem toInt32_ge (d : Dbl) : -2 ^ 31 ≤ Dbl.toInt32 d := by
  cases d with
  | nan => simp [Dbl.toInt32]
  | fin q =>
    simp only [Dbl.toInt32]
    split_ifs with h
    · exact h.1
    · exact le_refl _

/-- The double expression of `nextFrameDelay`, step by step. -/
theorem VivictPP.delayExpr_eval (a b : ℚ) (corr : Int) (A B d p s : ℚ)
    (hA : Dbl.rndQ a = Dbl.fin A) (hB : Dbl.rndQ b = Dbl.fin B)
    (hd : Dbl.rndQ (B - A) = Dbl.fin d) (hp : Dbl.rndQ (d * 1000) = Dbl.fin p)
    (hs : Dbl.rndQ (p + (corr : ℚ)) = Dbl.fin s) :
    VivictPP.delayExpr (Dbl.fin a) (Dbl.fin b) corr = Dbl.fin s := by
  simp only [VivictPP.delayExpr, Dbl.rnd, hA, hB, Dbl.sub, hd, Dbl.mul, hp, Dbl.add, Dbl.ofInt, hs]

theorem VivictPP.nextFrameDelay_fst (w : World) (v : VivictPP) :
    (VivictPP.nextFrameDelay w v).1
      = max 5 (Dbl.toInt32 (VivictPP.delayExpr v.state.pts v.state.nextPts
          (VivictPP.clampCorr w (w.diffMicros v.trace (w.toMicros v.state.pts))))) := rfl

/-- The double expression at `pts = 0.08`, `nextPts = 0.12` without correction:
39.99999999999999289..., the binary64 value just below 40. -/
theorem VivictPP.delayExpr_frame_two :
    VivictPP.delayExpr (Dbl.fin (2 / 25)) (Dbl.fin (3 / 25)) 0
      = Dbl.fin (5629499534213119 / 140737488355328) := by
  apply VivictPP.delayExpr_eval (2 / 25) (3 / 25) 0
    (5764607523034235 / 72057594037927936) (1080863910568919 / 9007199254740992)
    (2882303761517117 / 72057594037927936) (5629499534213119 / 140737488355328)
  · rw [rndQ_eq (2 / 25) (-4) 5764607523034235 (by norm_num) (by norm_num) (by norm_num)
      (by norm_num [abs_lt]) (by norm_num)]
    norm_num
  · rw [rndQ_eq (3 / 25) (-4) 8646911284551352 (by norm_num) (by norm_num) (by norm_num)
      (by norm_num [abs_lt]) (by norm_num)]
    norm_num
  · rw [rndQ_eq (1080863910568919 / 9007199254740992 - 5764607523034235 / 72057594037927936)
      (-5) 5764607523034234 (by norm_num) (by norm_num) (by norm_num)
      (by norm_num [abs_lt]) (by norm_num)]
    norm_num
  · rw [rndQ_eq (2882303761517117 / 72057594037927936 * 1000) 5 5629499534213119
      (by norm_num) (by norm_num) (by norm_num) (by norm_num [abs_lt]) (by norm_num)]
    norm_num
  · rw [rndQ_eq (5629499534213119 / 140737488355328 + ((0 : ℤ) : ℚ)) 5 5629499534213119
      (by norm_num) (by norm_num) (by norm_num) (by norm_num [abs_lt]) (by norm_num)]
    norm_num

/-- The double expression at `pts = 0`, `nextPts = 0.015` (the binary64 value
1080863910568919 / 2^56) without correction: the product rounds up to 15. -/
theorem VivictPP.delayExpr_rounds_up :
    VivictPP.delayExpr (Dbl.fin 0) (Dbl.fin (1080863910568919 / 72057594037927936)) 0
      = Dbl.fin 15 := by
  apply VivictPP.delayExpr_eval 0 (1080863910568919 / 72057594037927936) 0
    0 (1080863910568919 / 72057594037927936) (1080863910568919 / 72057594037927936) 15
  · exact rndQ_zero
  · rw [rndQ_eq (1080863910568919 / 72057594037927936) (-7) 8646911284551352
      (by norm_num) (by norm_num) (by norm_num) (by norm_num [abs_lt]) (by norm_num)]
    norm_num
  · rw [rndQ_eq (1080863910568919 / 72057594037927936 - 0) (-7) 8646911284551352
      (by norm_num) (by norm_num) (by norm_num) (by norm_num [abs_lt]) (by norm_num)]
    norm_num
  · rw [rndQ_eq (1080863910568919 / 72057594037927936 * 1000) 3 8444249301319680
      (by norm_num) (by norm_num) (by norm_num) (by norm_num [abs_lt]) (by norm_num)]
    norm_num
  · rw [rndQ_eq (15 + ((0 : ℤ) : ℚ)) 3 8444249301319680
      (by norm_num) (by norm_num) (by norm_num) (by norm_num [abs_lt]) (by norm_num)]
    norm_num

/-- C1, as amended: for finite `pts` and `nextPts`, `nextFrameDelay` returns
`max(5, (int) s)` where `s` is `(nextPts - pts) * 1000 + corr` computed in double
arithmetic (each operation rounded to the nearest binary64) and `corr` is the `int`
holding `toMillis(avSync.diffMicros(toMicros(pts)))`, clamped to [-30, 30]; `corr` is the
clamped millisecond value itself whenever that value fits an `int`, the conversion is the
truncation of `s` whenever that fits an `int`, the delay is at least 5 and the
correction lies in [-30, 30]. -/
theorem nextFrameDelay_spec (w : World) (v : VivictPP) (a b : ℚ)
    (hpts : v.state.pts = Dbl.fin a) (hnext : v.state.nextPts = Dbl.fin b) :
    VivictPP.clampCorr w (w.diffMicros v.trace (w.toMicros v.state.pts))
        = max (-30) (min 30
            (wrapInt32 (w.toMillis (w.diffMicros v.trace (w.toMicros v.state.pts)))))
      ∧ (-2 ^ 31 ≤ w.toMillis (w.diffMicros v.trace (w.toMicros v.state.pts)) →
          w.toMillis (w.diffMicros v.trace (w.toMicros v.state.pts)) < 2 ^ 31 →
          VivictPP.clampCorr w (w.diffMicros v.trace (w.toMicros v.state.pts))
            = max (-30) (min 30 (w.toMillis (w.diffMicros v.trace (w.toMicros v.state.pts)))))
      ∧ -30 ≤ VivictPP.clampCorr w (w.diffMicros v.trace (w.toMicros v.state.pts))
      ∧ VivictPP.clampCorr w (w.diffMicros v.trace (w.toMicros v.state.pts)) ≤ 30
      ∧ (VivictPP.nextFrameDelay w v).1
          = max 5 (Dbl.toInt32 (Dbl.rnd ((Dbl.rnd ((Dbl.rnd
              ((Dbl.rndQ b).sub (Dbl.rndQ a))).mul (Dbl.fin 1000))).add
                (Dbl.ofInt (VivictPP.clampCorr w
                  (w.diffMicros v.trace (w.toMicros v.state.pts)))))))
      ∧ (∀ s : ℚ, VivictPP.delayExpr (Dbl.fin a) (Dbl.fin b)
            (VivictPP.clampCorr w (w.diffMicros v.trace (w.toMicros v.state.pts))) = Dbl.fin s →
          -2 ^ 31 ≤ Dbl.truncQ s → Dbl.truncQ s < 2 ^ 31 →
          (VivictPP.nextFrameDelay w v).1 = max 5 (Dbl.truncQ s))
      ∧ 5 ≤ (VivictPP.nextFrameDelay w v).1 := by
  refine ⟨VivictPP.clampCorr_eq w _, ?_, ?_, ?_, ?_, ?_, ?_⟩
  · intro h1 h2
    rw [VivictPP.clampCorr_eq, wrapInt32_of_fits _ h1 h2]
  · rw [VivictPP.clampCorr_eq]; exact le_max_left _ _
  · rw [VivictPP.clampCorr_eq]; exact max_le (by norm_num) (min_le_left _ _)
  · simp only [VivictPP.nextFrameDelay, VivictPP.delayExpr, hpts, hnext, Dbl.rnd]
  · intro s hs h1 h2
    rw [hpts] at hs
    simp only [VivictPP.nextFrameDelay, hpts, hnext, hs, Dbl.toInt32, h1, h2, and_self, if_true]
  · exact le_max_left _ _

/-- Witness for C1 as amended: at `pts = 0.08`, `nextPts = 0.12` and a clock without
drift the delay is 39; with the clock 3 * 10^12 microseconds ahead, the millisecond value
3 * 10^9 does not fit the `int` and the correction is -30. -/
theorem nextFrameDelay_spec_witness :
    (VivictPP.nextFrameDelay World.still
        (VivictPP.sample PlaybackState.PLAYING (Dbl.fin (2 / 25)) (Dbl.fin (3 / 25)))).1 = 39
      ∧ VivictPP.clampCorr World.drifted
          (World.drifted.diffMicros
            (VivictPP.sample PlaybackState.PLAYING (Dbl.fin 0) (Dbl.fin 0)).trace
            (World.drifted.toMicros
              (VivictPP.sample PlaybackState.PLAYING (Dbl.fin 0) (Dbl.fin 0)).state.pts)) = -30 := by
  constructor
  · have h := (nextFrameDelay_spec World.still
      (VivictPP.sample PlaybackState.PLAYING (Dbl.fin (2 / 25)) (Dbl.fin (3 / 25)))
      (2 / 25) (3 / 25) rfl rfl).2.2.2.2.2.1 (5629499534213119 / 140737488355328)
      VivictPP.delayExpr_frame_two
      (by norm_num [Dbl.truncQ, Int.floor_eq_iff])
      (by norm_num [Dbl.truncQ, Int.floor_eq_iff])
    rw [h]
    norm_num [Dbl.truncQ, Int.floor_eq_iff]
  · rw [(nextFrameDelay_spec World.drifted
      (VivictPP.sample PlaybackState.PLAYING (Dbl.fin 0) (Dbl.fin 0)) 0 0 rfl rfl).1]
    decide

/-- C1 as stated fails: at `pts = 0` and `nextPts = 0.015` (a binary64 value) with a
clock without drift, the exact value of `(nextPts - pts) * 1000 + corr` is just below 15
and truncates to 14, while the double product rounds to 15 and `nextFrameDelay` returns
15. -/
theorem nextFrameDelay_spec_counterexample :
    (VivictPP.nextFrameDelay World.still
        (VivictPP.sample PlaybackState.PLAYING (Dbl.fin 0)
          (Dbl.fin (1080863910568919 / 72057594037927936)))).1 = 15
      ∧ max 5 (Dbl.truncQ ((1080863910568919 / 72057594037927936 - 0) * 1000
          + ((max (-30) (min 30 (World.still.toMillis (World.still.diffMicros
              (VivictPP.sample PlaybackState.PLAYING (Dbl.fin 0)
                (Dbl.fin (1080863910568919 / 72057594037927936))).trace
              (World.still.toMicros (Dbl.fin 0))))) : ℤ) : ℚ))) = 14 := by
  constructor
  · rw [VivictPP.nextFrameDelay_fst]
    have hc : VivictPP.clampCorr World.still (World.still.diffMicros
        (VivictPP.sample PlaybackState.PLAYING (Dbl.fin 0)
          (Dbl.fin (1080863910568919 / 72057594037927936))).trace
        (World.still.toMicros (VivictPP.sample PlaybackState.PLAYING (Dbl.fin 0)
          (Dbl.fin (1080863910568919 / 72057594037927936))).state.pts)) = 0 := by
      decide
    rw [hc]
    have he : VivictPP.delayExpr
        (VivictPP.sample PlaybackState.PLAYING (Dbl.fin 0)
          (Dbl.fin (1080863910568919 / 72057594037927936))).state.pts
        (VivictPP.sample PlaybackState.PLAYING (Dbl.fin 0)
          (Dbl.fin (1080863910568919 / 72057594037927936))).state.nextPts 0 = Dbl.fin 15 :=
      VivictPP.delayExpr_rounds_up
    rw [he]
    norm_num [Dbl.toInt32, Dbl.truncQ, Int.floor_eq_iff]
  · have hm : World.still.toMillis (World.still.diffMicros
        (VivictPP.sample PlaybackState.PLAYING (Dbl.fin 0)
          (Dbl.fin (1080863910568919 / 72057594037927936))).trace
        (World.still.toMicros (Dbl.fin 0))) = 0 := by decide
    rw [hm]
    norm_num [Dbl.truncQ, Int.floor_eq_iff]

/-! ## Toggling -/

/-- C5: `PlayerState::togglePlaying` maps STOPPED to PLAYING and PLAYING to STOPPED,
leaves SEEKING as it is, changes no other field, and returns the new `playbackState`. -/
theorem PlayerState_togglePlaying_spec (s : PlayerState) :
    (s.togglePlaying).1.playbackState =
        (match s.playbackState with
          | PlaybackState.PLAYING => PlaybackState.STOPPED
          | PlaybackState.STOPPED => PlaybackState.PLAYING
          | PlaybackState.SEEKING => PlaybackState.SEEKING)
      ∧ (s.togglePlaying).1.pts = s.pts
      ∧ (s.togglePlaying).1.nextPts = s.nextPts
      ∧ (s.togglePlaying).1.seeking = s.seeking
      ∧ (s.togglePlaying).1.stepFrame = s.stepFrame
      ∧ (s.togglePlaying).1.lastFrameAdvance = s.lastFrameAdvance
      ∧ (s.togglePlaying).2 = (s.togglePlaying).1.playbackState := by
  cases s with
  | mk ps pts nextPts seeking stepFrame lastFrameAdvance =>
    cases ps <;> simp [PlayerState.togglePlaying]

/-! ## Shape of the calls made by the controller -/

theorem Extends.refl (P : Call → Prop) (t : Trace) : Extends P t t :=
  ⟨[], by simp, by simp⟩

theorem Extends.trans {P : Call → Prop} {t1 t2 t3 : Trace}
    (h12 : Extends P t1 t2) (h23 : Extends P t2 t3) : Extends P t1 t3 := by
  obtain ⟨l1, rfl, h1⟩ := h12
  obtain ⟨l2, rfl, h2⟩ := h23
  refine ⟨l1 ++ l2, by simp, ?_⟩
  intro c hc
  rcases List.mem_append.mp hc with h | h
  · exact h1 c h
  · exact h2 c h

theorem Extends.mono {P Q : Call → Prop} {t1 t2 : Trace} (hPQ : ∀ c, P c → Q c)
    (h : Extends P t1 t2) : Extends Q t1 t2 := by
  obtain ⟨l, rfl, hl⟩ := h
  exact ⟨l, rfl, fun c hc => hPQ c (hl c hc)⟩

theorem Extends.snoc {P : Call → Prop} {t1 t2 : Trace} (h : Extends P t1 t2) (c : Call)
    (hc : P c) : Extends P t1 (t2 ++ [c]) :=
  h.trans ⟨[c], rfl, by simpa using hc⟩

theorem Extends.emit {P : Call → Prop} {t1 : Trace} {v : VivictPP} (h : Extends P t1 v.trace)
    (c : Call) (hc : P c) : Extends P t1 (v.emit c).trace :=
  h.snoc c hc

namespace VivictPP

@[simp] theorem audioSeek_state (w : World) (v : VivictPP) (p : Dbl) :
    (audioSeek w v p).state = v.state := by
  simp only [audioSeek]; split_ifs <;> rfl

@[simp] theorem audioSeek_hasAudioOutput (w : World) (v : VivictPP) (p : Dbl) :
    (audioSeek w v p).hasAudioOutput = v.hasAudioOutput := by
  simp only [audioSeek]; split_ifs <;> rfl

@[simp] theorem audioSeek_frameDuration (w : World) (v : VivictPP) (p : Dbl) :
    (audioSeek w v p).frameDuration = v.frameDuration := by
  simp only [audioSeek]; split_ifs <;> rfl

theorem audioSeek_extends (w : World) (v : VivictPP) (p : Dbl) :
    Extends (fun c => c.isAudio = true) v.trace (audioSeek w v p).trace := by
  simp only [audioSeek]
  split_ifs <;>
    repeat (first | exact Extends.refl _ _ | refine Extends.emit ?_ _ rfl)

theorem queueAudioLoop_facts (w : World) (n : Nat) (np qd : Dbl) (v : VivictPP) :
    (queueAudioLoop w n np qd v).2.state = v.state
      ∧ (queueAudioLoop w n np qd v).2.hasAudioOutput = v.hasAudioOutput
      ∧ (queueAudioLoop w n np qd v).2.frameDuration = v.frameDuration
      ∧ Extends (fun c => c.isAudio = true) v.trace (queueAudioLoop w n np qd v).2.trace := by
  induction n generalizing np qd v with
  | zero => exact ⟨rfl, rfl, rfl, Extends.refl _ _⟩
  | succ n ih =>
    simp only [queueAudioLoop]
    split_ifs
    · exact ⟨rfl, rfl, rfl, Extends.refl _ _⟩
    · refine ⟨(ih _ _ _).1, (ih _ _ _).2.1, (ih _ _ _).2.2.1, ?_⟩
      refine Extends.trans ?_ (ih _ _ _).2.2.2
      repeat (first | exact Extends.refl _ _ | refine Extends.emit ?_ _ rfl)

theorem queueAudio_facts (w : World) (v : VivictPP) :
    (queueAudio w v).state = v.state
      ∧ (queueAudio w v).hasAudioOutput = v.hasAudioOutput
      ∧ (queueAudio w v).frameDuration = v.frameDuration
      ∧ Extends (fun c => c.isAudio = true) v.trace (queueAudio w v).trace := by
  simp only [queueAudio]
  split_ifs
  · exact ⟨rfl, rfl, rfl, Extends.refl _ _⟩
  · refine ⟨rfl, rfl, rfl, ?_⟩
    repeat (first | exact Extends.refl _ _ | refine Extends.emit ?_ _ rfl)
  · refine ⟨rfl, rfl, rfl, ?_⟩
    repeat (first | exact Extends.refl _ _ | refine Extends.emit ?_ _ rfl)
  · refine ⟨(queueAudioLoop_facts w _ _ _ _).1, (queueAudioLoop_facts w _ _ _ _).2.1,
      (queueAudioLoop_facts w _ _ _ _).2.2.1, ?_⟩
    refine Extends.emit ?_ _ rfl
    refine Extends.trans ?_ (queueAudioLoop_facts w _ _ _ _).2.2.2
    repeat (first | exact Extends.refl _ _ | refine Extends.emit ?_ _ rfl)
  · refine ⟨rfl, rfl, rfl, ?_⟩
    repeat (first | exact Extends.refl _ _ | refine Extends.emit ?_ _ rfl)

theorem togglePlaying_of_stopped (w : World) (v : VivictPP)
    (h : v.state.playbackState = PlaybackState.STOPPED) :
    (togglePlaying w v).2.state =
        { v.state with
          playbackState := PlaybackState.PLAYING
          nextPts := if v.state.nextPts.eq v.state.pts then v.state.pts.add v.frameDuration
            else v.state.nextPts }
      ∧ (togglePlaying w v).2.hasAudioOutput = v.hasAudioOutput
      ∧ (togglePlaying w v).2.frameDuration = v.frameDuration
      ∧ ∃ t : Trace, Extends (fun c => c.isAudio = true) v.trace t
          ∧ (togglePlaying w v).2.trace
              = t ++ [Call.playbackStart (w.toMicros v.state.pts), Call.scheduleAdvanceFrame 0] := by
  have hq := queueAudio_facts w
    (audioSeek w { v with state := (v.state.togglePlaying).1 } (v.state.togglePlaying).1.pts)
  have ha := audioSeek_extends w { v with state := (v.state.togglePlaying).1 }
    (v.state.togglePlaying).1.pts
  obtain ⟨hq1, hq2, hq3, hq4⟩ := hq
  have ht : v.state.togglePlaying
      = ({ v.state with playbackState := PlaybackState.PLAYING }, PlaybackState.PLAYING) := by
    simp [PlayerState.togglePlaying, h]
  rw [ht] at hq1 hq2 hq3 hq4 ha
  simp only [audioSeek_state, audioSeek_hasAudioOutput, audioSeek_frameDuration] at hq1 hq2 hq3
  simp only [togglePlaying, ht, if_true]
  refine ⟨?_, ?_, ?_, ?_⟩
  · split_ifs <;> simp_all
  · split_ifs <;> simp_all
  · split_ifs <;> simp_all
  · by_cases hao : v.hasAudioOutput = true
    · refine ⟨_ ++ [Call.start], (ha.trans hq4).snoc _ rfl, ?_⟩
      split_ifs <;> simp_all
    · refine ⟨_, ha.trans hq4, ?_⟩
      split_ifs <;> simp_all

theorem togglePlaying_of_not_stopped (w : World) (v : VivictPP)
    (h : v.state.playbackState ≠ PlaybackState.STOPPED) :
    (togglePlaying w v).2.state =
        { v.state with
          playbackState := if v.state.playbackState = PlaybackState.PLAYING
            then PlaybackState.STOPPED else v.state.playbackState }
      ∧ (togglePlaying w v).2.hasAudioOutput = v.hasAudioOutput
      ∧ (togglePlaying w v).2.frameDuration = v.frameDuration
      ∧ (togglePlaying w v).2.trace
          = v.trace ++ (if v.hasAudioOutput then [Call.stop] else []) := by
  obtain ⟨⟨ps, pts, np, sk, sf, lfa⟩, fd, hao, tr⟩ := v
  cases ps with
  | STOPPED => exact absurd rfl h
  | PLAYING =>
    simp only [togglePlaying, PlayerState.togglePlaying]
    refine ⟨?_, ?_, ?_, ?_⟩ <;> split_ifs <;> simp_all
  | SEEKING =>
    simp only [togglePlaying, PlayerState.togglePlaying]
    refine ⟨?_, ?_, ?_, ?_⟩ <;> split_ifs <;> simp_all

theorem checkReady_fst (w : World) (v : VivictPP) :
    (checkReady w v).1 = targetBuffered w v v.state.nextPts := by
  simp only [checkReady, targetBuffered]
  split_ifs <;> simp_all

theorem checkReady_snd (w : World) (v : VivictPP) :
    (checkReady w v).2.state = v.state
      ∧ (checkReady w v).2.hasAudioOutput = v.hasAudioOutput
      ∧ (checkReady w v).2.frameDuration = v.frameDuration
      ∧ (checkReady w v).2.trace = v.trace ++ readyQueries w v v.state.nextPts := by
  simp only [checkReady, readyQueries]
  refine ⟨?_, ?_, ?_, ?_⟩ <;> split_ifs <;> simp_all

theorem readyQueries_quiet (w : World) (v : VivictPP) (p : Dbl) :
    ∀ c ∈ readyQueries w v p, c.isSeek = false ∧ c.isScheduleAdvanceFrame = false := by
  intro c hc
  simp only [readyQueries] at hc
  split_ifs at hc <;> simp at hc <;> rcases hc with rfl | rfl <;> exact ⟨rfl, rfl⟩

theorem seek_of_not_buffered (w : World) (v : VivictPP) (target : Dbl)
    (hb : targetBuffered w v target = false) :
    (seek w v target).state = { v.state with nextPts := target, seeking := true }
      ∧ (seek w v target).hasAudioOutput = v.hasAudioOutput
      ∧ (seek w v target).frameDuration = v.frameDuration
      ∧ (seek w v target).trace
          = v.trace ++ readyQueries w v target ++ [Call.seek target, Call.scheduleAdvanceFrame 5] := by
  obtain ⟨⟨ps, pts, np, sk, sf, lfa⟩, fd, hao, tr⟩ := v
  have h1 := checkReady_fst w ⟨⟨ps, pts, target, sk, sf, lfa⟩, fd, hao, tr⟩
  obtain ⟨h2, h3, h4, h5⟩ := checkReady_snd w ⟨⟨ps, pts, target, sk, sf, lfa⟩, fd, hao, tr⟩
  have hb1 : targetBuffered w ⟨⟨ps, pts, target, sk, sf, lfa⟩, fd, hao, tr⟩ target = false := hb
  have hq : readyQueries w ⟨⟨ps, pts, target, sk, sf, lfa⟩, fd, hao, tr⟩ target
      = readyQueries w ⟨⟨ps, pts, np, sk, sf, lfa⟩, fd, hao, tr⟩ target := rfl
  simp only [hb1, hq] at h1 h2 h3 h4 h5
  simp only [seek]
  generalize checkReady w ⟨⟨ps, pts, target, sk, sf, lfa⟩, fd, hao, tr⟩ = r at h1 h2 h3 h4 h5 ⊢
  obtain ⟨b, ⟨st1, fd1, hao1, tr1⟩⟩ := r
  simp only at h1 h2 h3 h4 h5
  subst h1 h2 h3 h4 h5
  simp

theorem seek_of_buffered_not_playing (w : World) (v : VivictPP) (target : Dbl)
    (hb : targetBuffered w v target = true)
    (hp : v.state.playbackState ≠ PlaybackState.PLAYING) :
    (seek w v target).state = { v.state with nextPts := target }
      ∧ (seek w v target).hasAudioOutput = v.hasAudioOutput
      ∧ (seek w v target).frameDuration = v.frameDuration
      ∧ ∃ t : Trace, Extends (fun c => c.isAudio = true) (v.trace ++ readyQueries w v target) t
          ∧ (seek w v target).trace = t ++ [Call.scheduleAdvanceFrame 5] := by
  obtain ⟨⟨ps, pts, np, sk, sf, lfa⟩, fd, hao, tr⟩ := v
  have h1 := checkReady_fst w ⟨⟨ps, pts, target, sk, sf, lfa⟩, fd, hao, tr⟩
  obtain ⟨h2, h3, h4, h5⟩ := checkReady_snd w ⟨⟨ps, pts, target, sk, sf, lfa⟩, fd, hao, tr⟩
  have hb1 : targetBuffered w ⟨⟨ps, pts, target, sk, sf, lfa⟩, fd, hao, tr⟩ target = true := hb
  have hq : readyQueries w ⟨⟨ps, pts, target, sk, sf, lfa⟩, fd, hao, tr⟩ target
      = readyQueries w ⟨⟨ps, pts, np, sk, sf, lfa⟩, fd, hao, tr⟩ target := rfl
  simp only [hb1, hq] at h1 h2 h3 h4 h5
  simp only [seek]
  generalize checkReady w ⟨⟨ps, pts, target, sk, sf, lfa⟩, fd, hao, tr⟩ = r at h1 h2 h3 h4 h5 ⊢
  obtain ⟨b, ⟨st1, fd1, hao1, tr1⟩⟩ := r
  simp only at h1 h2 h3 h4 h5 hp
  subst h1 h2 h3 h4 h5
  have ha := audioSeek_extends w ⟨⟨ps, pts, target, sk, sf, lfa⟩, fd1, hao1,
    tr ++ readyQueries w ⟨⟨ps, pts, np, sk, sf, lfa⟩, fd1, hao1, tr⟩ target⟩ target
  simp only [if_true, hp, if_false, emit_state, emit_trace, emit_hasAudioOutput,
    emit_frameDuration, audioSeek_state, audioSeek_hasAudioOutput, audioSeek_frameDuration]
  exact ⟨trivial, trivial, trivial, _, ha, rfl⟩

theorem seek_of_buffered_playing (w : World) (v : VivictPP) (target : Dbl)
    (hb : targetBuffered w v target = true)
    (hp : v.state.playbackState = PlaybackState.PLAYING) :
    (seek w v target).state =
        { v.state with
          nextPts := if target.eq v.state.pts then v.state.pts.add v.frameDuration else target }
      ∧ (seek w v target).hasAudioOutput = v.hasAudioOutput
      ∧ (seek w v target).frameDuration = v.frameDuration
      ∧ ∃ t : Trace, Extends (fun c => c.isAudio = true) (v.trace ++ readyQueries w v target) t
          ∧ (seek w v target).trace
              = t ++ [Call.playbackStart (w.toMicros v.state.pts), Call.scheduleAdvanceFrame 0] := by
  obtain ⟨⟨ps, pts, np, sk, sf, lfa⟩, fd, hao, tr⟩ := v
  have h1 := checkReady_fst w ⟨⟨ps, pts, target, sk, sf, lfa⟩, fd, hao, tr⟩
  obtain ⟨h2, h3, h4, h5⟩ := checkReady_snd w ⟨⟨ps, pts, target, sk, sf, lfa⟩, fd, hao, tr⟩
  have hb1 : targetBuffered w ⟨⟨ps, pts, target, sk, sf, lfa⟩, fd, hao, tr⟩ target = true := hb
  have hq : readyQueries w ⟨⟨ps, pts, target, sk, sf, lfa⟩, fd, hao, tr⟩ target
      = readyQueries w ⟨⟨ps, pts, np, sk, sf, lfa⟩, fd, hao, tr⟩ target := rfl
  simp only [hb1, hq] at h1 h2 h3 h4 h5
  simp only [seek]
  generalize checkReady w ⟨⟨ps, pts, target, sk, sf, lfa⟩, fd, hao, tr⟩ = r at h1 h2 h3 h4 h5 ⊢
  obtain ⟨b, ⟨st1, fd1, hao1, tr1⟩⟩ := r
  simp only at h1 h2 h3 h4 h5 hp
  subst h1 h2 h3 h4 h5 hp
  simp only [if_true]
  -- first toggle: PLAYING to STOPPED
  obtain ⟨a1, a2, a3, a4⟩ := togglePlaying_of_not_stopped w
    ⟨⟨PlaybackState.PLAYING, pts, target, sk, sf, lfa⟩, fd1, hao1,
      tr ++ readyQueries w ⟨⟨PlaybackState.PLAYING, pts, np, sk, sf, lfa⟩, fd1, hao1, tr⟩ target⟩
    (by simp)
  generalize togglePlaying w ⟨⟨PlaybackState.PLAYING, pts, target, sk, sf, lfa⟩, fd1, hao1,
      tr ++ readyQueries w ⟨⟨PlaybackState.PLAYING, pts, np, sk, sf, lfa⟩, fd1, hao1, tr⟩ target⟩
    = r1 at a1 a2 a3 a4 ⊢
  obtain ⟨p1, ⟨st2, fd2, hao2, tr2⟩⟩ := r1
  simp only [if_true] at a1 a2 a3 a4
  subst a1 a2 a3 a4
  -- audio resync
  have hax := audioSeek_extends w
    ⟨⟨PlaybackState.STOPPED, pts, target, sk, sf, lfa⟩, fd2, hao2,
      tr ++ readyQueries w ⟨⟨PlaybackState.PLAYING, pts, np, sk, sf, lfa⟩, fd2, hao2, tr⟩ target
        ++ (if hao2 = true then [Call.stop] else [])⟩ target
  -- second toggle: STOPPED to PLAYING
  obtain ⟨b1, b2, b3, t, b4, b5⟩ := togglePlaying_of_stopped w
    (audioSeek w ⟨⟨PlaybackState.STOPPED, pts, target, sk, sf, lfa⟩, fd2, hao2,
      tr ++ readyQueries w ⟨⟨PlaybackState.PLAYING, pts, np, sk, sf, lfa⟩, fd2, hao2, tr⟩ target
        ++ (if hao2 = true then [Call.stop] else [])⟩ target) (by simp)
  simp only [audioSeek_state, audioSeek_hasAudioOutput, audioSeek_frameDuration] at b1 b2 b3 b5
  refine ⟨b1, b2, b3, t, ?_, b5⟩
  refine Extends.trans ?_ (Extends.trans hax b4)
  by_cases hao : hao2 = true
  · simp only [hao, if_true]
    exact ⟨[Call.stop], by simp, by simp [Call.isAudio]⟩
  · simp only [hao, Bool.false_eq_true, if_false]
    exact ⟨[], by simp, by simp⟩

end VivictPP

theorem callsSince_append {α : Type} (t l : List α) : callsSince t (t ++ l) = l := by
  simp [callsSince]

theorem Extends.callsSince_all {P : Call → Prop} {t1 t2 : Trace} (h : Extends P t1 t2) :
    ∀ c ∈ callsSince t1 t2, P c := by
  obtain ⟨l, rfl, hl⟩ := h
  rw [callsSince_append]
  exact hl

theorem Extends.of_append (P : Call → Prop) (t l : Trace) (hl : ∀ c ∈ l, P c) :
    Extends P t (t ++ l) := ⟨l, rfl, hl⟩

theorem isAudio_not_isSeek (c : Call) (h : c.isAudio = true) : c.isSeek = false := by
  cases c <;> simp_all [Call.isAudio, Call.isSeek]

/-- On a target that is buffered, `seek` makes no call to `videoInputs.seek`. -/
theorem VivictPP.seek_buffered_no_pipeline_seek (w : World) (v : VivictPP) (target : Dbl)
    (hb : targetBuffered w v target = true) :
    Extends (fun c => c.isSeek = false) v.trace (VivictPP.seek w v target).trace := by
  have hq : Extends (fun c => c.isSeek = false) v.trace (v.trace ++ readyQueries w v target) :=
    Extends.of_append _ _ _ (fun c hc => (VivictPP.readyQueries_quiet w v target c hc).1)
  by_cases hp : v.state.playbackState = PlaybackState.PLAYING
  · obtain ⟨_, _, _, t, h1, h2⟩ := VivictPP.seek_of_buffered_playing w v target hb hp
    rw [h2]
    refine Extends.trans (hq.trans (h1.mono isAudio_not_isSeek)) (Extends.of_append _ _ _ ?_)
    simp [Call.isSeek]
  · obtain ⟨_, _, _, t, h1, h2⟩ := VivictPP.seek_of_buffered_not_playing w v target hb hp
    rw [h2]
    refine Extends.trans (hq.trans (h1.mono isAudio_not_isSeek)) (Extends.of_append _ _ _ ?_)
    simp [Call.isSeek]

/-- The value of `nextPts` when `seek` returns. -/
theorem VivictPP.seek_state_nextPts (w : World) (v : VivictPP) (target : Dbl) :
    (VivictPP.seek w v target).state.nextPts =
      if v.state.playbackState = PlaybackState.PLAYING ∧ targetBuffered w v target = true
          ∧ target.eq v.state.pts = true
        then v.state.pts.add v.frameDuration else target := by
  cases hb : targetBuffered w v target with
  | false =>
    rw [(VivictPP.seek_of_not_buffered w v target hb).1]
    simp
  | true =>
    by_cases hp : v.state.playbackState = PlaybackState.PLAYING
    · rw [(VivictPP.seek_of_buffered_playing w v target hb hp).1]
      simp [hp]
    · rw [(VivictPP.seek_of_buffered_not_playing w v target hb hp).1]
      simp [hp]

/-- The player state when `seek` returns while not PLAYING. -/
theorem VivictPP.seek_state_of_not_playing (w : World) (v : VivictPP) (target : Dbl)
    (hp : v.state.playbackState ≠ PlaybackState.PLAYING) :
    (VivictPP.seek w v target).state =
      { v.state with
        nextPts := target
        seeking := v.state.seeking || !targetBuffered w v target } := by
  cases hb : targetBuffered w v target with
  | false =>
    rw [(VivictPP.seek_of_not_buffered w v target hb).1]
    simp
  | true =>
    rw [(VivictPP.seek_of_buffered_not_playing w v target hb hp).1]
    simp

/-- The player state after a tick of `advanceFrame` that starts with a known `nextPts`
while not PLAYING: the target is committed when it is buffered, and nothing changes
otherwise. -/
theorem VivictPP.advanceFrame_state_of_not_playing (w : World) (v : VivictPP)
    (hn : v.state.nextPts.isnan = false)
    (hp : v.state.playbackState ≠ PlaybackState.PLAYING) :
    (VivictPP.advanceFrame w v).state =
      if targetBuffered w v v.state.nextPts then
        { v.state with pts := v.state.nextPts, seeking := false }
      else v.state := by
  have h1 := VivictPP.checkReady_fst w v
  obtain ⟨h2, h3, h4, h5⟩ := VivictPP.checkReady_snd w v
  simp only [VivictPP.advanceFrame, VivictPP.resolveNextPts, hn, Bool.false_eq_true, if_false]
  generalize VivictPP.checkReady w v = r at h1 h2 h3 h4 h5 ⊢
  obtain ⟨b, v1⟩ := r
  simp only at h1 h2 h3 h4 h5
  subst h1
  cases hb : targetBuffered w v v.state.nextPts with
  | false => simp [h2]
  | true =>
    simp only [if_true, VivictPP.emit_state, VivictPP.scheduleNext]
    split_ifs <;> simp_all

theorem isAudio_not_isScheduleAdvanceFrame (c : Call) (h : c.isAudio = true) :
    c.isScheduleAdvanceFrame = false := by
  cases c <;> simp_all [Call.isAudio, Call.isScheduleAdvanceFrame]

theorem countP_eq_zero_of_all {l : List Call} {q : Call → Bool} (h : ∀ c ∈ l, q c = false) :
    l.countP q = 0 := by
  rw [List.countP_eq_zero]
  intro c hc
  simp [h c hc]

/-- Two consecutive calls of `togglePlaying` from PLAYING. -/
theorem VivictPP.togglePlaying_twice_of_playing (w : World) (v : VivictPP)
    (hp : v.state.playbackState = PlaybackState.PLAYING) :
    (VivictPP.togglePlaying w (VivictPP.togglePlaying w v).2).2.state =
        { v.state with
          nextPts := if v.state.nextPts.eq v.state.pts then v.state.pts.add v.frameDuration
            else v.state.nextPts }
      ∧ ∃ t : Trace, Extends (fun c => c.isAudio = true) v.trace t
          ∧ (VivictPP.togglePlaying w (VivictPP.togglePlaying w v).2).2.trace
              = t ++ [Call.playbackStart (w.toMicros v.state.pts), Call.scheduleAdvanceFrame 0] := by
  obtain ⟨⟨ps, pts, np, sk, sf, lfa⟩, fd, hao, tr⟩ := v
  simp only at hp
  subst hp
  obtain ⟨a1, a2, a3, a4⟩ := VivictPP.togglePlaying_of_not_stopped w
    ⟨⟨PlaybackState.PLAYING, pts, np, sk, sf, lfa⟩, fd, hao, tr⟩ (by simp)
  generalize VivictPP.togglePlaying w ⟨⟨PlaybackState.PLAYING, pts, np, sk, sf, lfa⟩, fd, hao, tr⟩
    = r1 at a1 a2 a3 a4 ⊢
  obtain ⟨p1, ⟨st2, fd2, hao2, tr2⟩⟩ := r1
  simp only [if_true] at a1 a2 a3 a4
  subst a1 a2 a3 a4
  obtain ⟨b1, _, _, t, b4, b5⟩ := VivictPP.togglePlaying_of_stopped w
    ⟨⟨PlaybackState.STOPPED, pts, np, sk, sf, lfa⟩, fd2, hao2,
      tr ++ (if hao2 = true then [Call.stop] else [])⟩ rfl
  refine ⟨b1, t, ?_, b5⟩
  refine Extends.trans (Extends.of_append _ _ _ ?_) b4
  intro c hc
  split_ifs at hc <;> simp at hc
  subst hc
  rfl

/-! ## Seeking and toggling twice -/

/-- C3: `seekRelative(delta)` seeks to `nextPts + delta` when a seek is in flight and to
`pts + delta` otherwise; from a STOPPED state with no seek in flight whose target
`pts + d1` is not buffered, `seekRelative(d1); seekRelative(d2)` leaves
`nextPts == (pts + d1) + d2` and `seeking == true`. -/
theorem seekRelative_twice (w : World) (v : VivictPP) (d1 d2 : Dbl)
    (hstopped : v.state.playbackState = PlaybackState.STOPPED)
    (hseeking : v.state.seeking = false)
    (hnb : targetBuffered w v (v.state.pts.add d1) = false) :
    (∀ (u : VivictPP) (d : Dbl), VivictPP.seekRelative w u d
        = VivictPP.seek w u (if u.state.seeking then u.state.nextPts.add d else u.state.pts.add d))
      ∧ (VivictPP.seekRelative w (VivictPP.seekRelative w v d1) d2).state.nextPts
          = (v.state.pts.add d1).add d2
      ∧ (VivictPP.seekRelative w (VivictPP.seekRelative w v d1) d2).state.seeking = true := by
  have h1 : VivictPP.seekRelative w v d1 = VivictPP.seek w v (v.state.pts.add d1) := by
    simp [VivictPP.seekRelative, hseeking]
  have hs1 := (VivictPP.seek_of_not_buffered w v (v.state.pts.add d1) hnb).1
  have hp1 : (VivictPP.seek w v (v.state.pts.add d1)).state.playbackState
      ≠ PlaybackState.PLAYING := by rw [hs1]; simp [hstopped]
  have h2 : VivictPP.seekRelative w (VivictPP.seek w v (v.state.pts.add d1)) d2
      = VivictPP.seek w (VivictPP.seek w v (v.state.pts.add d1)) ((v.state.pts.add d1).add d2) := by
    simp [VivictPP.seekRelative, hs1]
  refine ⟨?_, ?_, ?_⟩
  · intro u d
    unfold VivictPP.seekRelative
    split_ifs <;> rfl
  · rw [h1, h2, VivictPP.seek_state_of_not_playing w _ _ hp1]
  · rw [h1, h2, VivictPP.seek_state_of_not_playing w _ _ hp1, hs1]
    simp

/-- Witness for C3: from `pts = 0`, two seeks of 5 s in a world where nothing is buffered
yet target 10; from a settled `pts = 10`, a seek of -5 s targets 5. -/
theorem seekRelative_twice_witness :
    (VivictPP.seekRelative World.still
        (VivictPP.seekRelative World.still
          (VivictPP.sample PlaybackState.STOPPED (Dbl.fin 0) (Dbl.fin 0)) (Dbl.fin 5))
        (Dbl.fin 5)).state.nextPts = Dbl.fin 10
      ∧ (VivictPP.seekRelative World.still
        (VivictPP.seekRelative World.still
          (VivictPP.sample PlaybackState.STOPPED (Dbl.fin 0) (Dbl.fin 0)) (Dbl.fin 5))
        (Dbl.fin 5)).state.seeking = true
      ∧ (VivictPP.seekRelative World.still
          (VivictPP.sample PlaybackState.STOPPED (Dbl.fin 10) (Dbl.fin 10))
          (Dbl.fin (-5))).state.nextPts = Dbl.fin 5 := by
  have h := seekRelative_twice World.still
    (VivictPP.sample PlaybackState.STOPPED (Dbl.fin 0) (Dbl.fin 0)) (Dbl.fin 5) (Dbl.fin 5)
    rfl rfl rfl
  refine ⟨?_, h.2.2, ?_⟩
  · rw [h.2.1]
    norm_num [VivictPP.sample, Dbl.add]
  · rw [h.1, VivictPP.seek_state_nextPts]
    have hne : ¬ (PlaybackState.STOPPED = PlaybackState.PLAYING) := by decide
    simp only [VivictPP.sample, hne, false_and, if_false, Bool.false_eq_true, Dbl.add]
    norm_num

/-- C6, as amended: from PLAYING with no seek pending, two consecutive calls of
`togglePlaying()` restore `playbackState`, `pts`, `seeking` and `stepFrame`, and schedule
exactly one advance (delay 0); `nextPts` is restored when `nextPts == pts` did not hold,
and is `pts + frameDuration` when it did. -/
theorem togglePlaying_twice (w : World) (v : VivictPP)
    (hp : v.state.playbackState = PlaybackState.PLAYING) (_hs : v.state.seeking = false) :
    (VivictPP.togglePlaying w (VivictPP.togglePlaying w v).2).2.state.playbackState
        = v.state.playbackState
      ∧ (VivictPP.togglePlaying w (VivictPP.togglePlaying w v).2).2.state.pts = v.state.pts
      ∧ (VivictPP.togglePlaying w (VivictPP.togglePlaying w v).2).2.state.seeking
          = v.state.seeking
      ∧ (VivictPP.togglePlaying w (VivictPP.togglePlaying w v).2).2.state.stepFrame
          = v.state.stepFrame
      ∧ (VivictPP.togglePlaying w (VivictPP.togglePlaying w v).2).2.state.nextPts
          = (if v.state.nextPts.eq v.state.pts then v.state.pts.add v.frameDuration
              else v.state.nextPts)
      ∧ Call.scheduleAdvanceFrame 0
          ∈ callsSince v.trace (VivictPP.togglePlaying w (VivictPP.togglePlaying w v).2).2.trace
      ∧ (callsSince v.trace
          (VivictPP.togglePlaying w (VivictPP.togglePlaying w v).2).2.trace).countP
            Call.isScheduleAdvanceFrame = 1 := by
  obtain ⟨h1, t, ⟨l, rfl, hl⟩, h3⟩ := VivictPP.togglePlaying_twice_of_playing w v hp
  rw [h1, h3]
  refine ⟨rfl, rfl, rfl, rfl, rfl, ?_, ?_⟩
  · simp [callsSince]
  · rw [List.append_assoc, callsSince_append, List.countP_append,
      countP_eq_zero_of_all (fun c hc => isAudio_not_isScheduleAdvanceFrame c (hl c hc))]
    simp [Call.isScheduleAdvanceFrame]

/-- Witness for C6: PLAYING at `pts = 0` with `nextPts = 1/25`. -/
theorem togglePlaying_twice_witness :
    (VivictPP.togglePlaying World.still (VivictPP.togglePlaying World.still
        (VivictPP.sample PlaybackState.PLAYING (Dbl.fin 0) (Dbl.fin (1 / 25)))).2).2.state.nextPts
      = Dbl.fin (1 / 25) := by
  have h := (togglePlaying_twice World.still
    (VivictPP.sample PlaybackState.PLAYING (Dbl.fin 0) (Dbl.fin (1 / 25))) rfl rfl).2.2.2.2.1
  rw [h]
  norm_num [VivictPP.sample, Dbl.eq]

/-- C6 as stated fails: PLAYING with no seek pending and `nextPts == pts == 0`, two calls
of `togglePlaying()` leave `nextPts = 0 + 1/25`. -/
theorem togglePlaying_twice_counterexample :
    (VivictPP.sample PlaybackState.PLAYING (Dbl.fin 0) (Dbl.fin 0)).state.playbackState
        = PlaybackState.PLAYING
      ∧ (VivictPP.sample PlaybackState.PLAYING (Dbl.fin 0) (Dbl.fin 0)).state.seeking = false
      ∧ (VivictPP.togglePlaying World.still (VivictPP.togglePlaying World.still
          (VivictPP.sample PlaybackState.PLAYING (Dbl.fin 0) (Dbl.fin 0))).2).2.state.nextPts
        ≠ (VivictPP.sample PlaybackState.PLAYING (Dbl.fin 0) (Dbl.fin 0)).state.nextPts := by
  refine ⟨rfl, rfl, ?_⟩
  rw [(VivictPP.togglePlaying_twice_of_playing World.still
    (VivictPP.sample PlaybackState.PLAYING (Dbl.fin 0) (Dbl.fin 0)) rfl).1]
  norm_num [VivictPP.sample, Dbl.eq, Dbl.add]

/-- C7, as amended: when `seek(target)` returns, `nextPts == target`, except when the
player is PLAYING, the target is buffered and `target == pts`: there the second
`togglePlaying()` has moved `nextPts` to `pts + frameDuration`. -/
theorem seek_sets_nextPts (w : World) (v : VivictPP) (target : Dbl) :
    (VivictPP.seek w v target).state.nextPts =
      if v.state.playbackState = PlaybackState.PLAYING ∧ targetBuffered w v target = true
          ∧ target.eq v.state.pts = true
        then v.state.pts.add v.frameDuration else target :=
  VivictPP.seek_state_nextPts w v target

/-- C7 as stated fails: PLAYING at `pts = 0`, a seek to the buffered target 0 returns
with `nextPts = 1/25`. -/
theorem seek_sets_nextPts_counterexample :
    (VivictPP.seek World.ready
        (VivictPP.sample PlaybackState.PLAYING (Dbl.fin 0) (Dbl.fin (1 / 25))) (Dbl.fin 0)).state.nextPts
      ≠ Dbl.fin 0 := by
  rw [VivictPP.seek_state_nextPts]
  norm_num [targetBuffered, World.ready, World.still, VivictPP.sample, Dbl.eq, Dbl.add]

/-- C8: when the target is not buffered, `seek(target)` sets `seeking`, makes exactly one
call `videoInputs.seek(target)`, schedules exactly one advance, with delay 5, and leaves
`playbackState` and `pts` as they were; when the target is buffered, it makes no call to
`videoInputs.seek` and leaves `seeking` as it was. -/
theorem seek_pipeline (w : World) (v : VivictPP) (target : Dbl) :
    (targetBuffered w v target = false →
        (VivictPP.seek w v target).state.seeking = true
        ∧ (callsSince v.trace (VivictPP.seek w v target).trace).countP Call.isSeek = 1
        ∧ Call.seek target ∈ callsSince v.trace (VivictPP.seek w v target).trace
        ∧ (callsSince v.trace (VivictPP.seek w v target).trace).countP
            Call.isScheduleAdvanceFrame = 1
        ∧ Call.scheduleAdvanceFrame 5 ∈ callsSince v.trace (VivictPP.seek w v target).trace
        ∧ (VivictPP.seek w v target).state.playbackState = v.state.playbackState
        ∧ (VivictPP.seek w v target).state.pts = v.state.pts)
      ∧ (targetBuffered w v target = true →
        (callsSince v.trace (VivictPP.seek w v target).trace).countP Call.isSeek = 0
        ∧ (VivictPP.seek w v target).state.seeking = v.state.seeking) := by
  constructor
  · intro hb
    obtain ⟨h1, _, _, h4⟩ := VivictPP.seek_of_not_buffered w v target hb
    have hq := VivictPP.readyQueries_quiet w v target
    rw [h1, h4, List.append_assoc, callsSince_append]
    refine ⟨rfl, ?_, by simp, ?_, by simp, rfl, rfl⟩
    · rw [List.countP_append, countP_eq_zero_of_all (fun c hc => (hq c hc).1)]
      simp [Call.isSeek]
    · rw [List.countP_append, countP_eq_zero_of_all (fun c hc => (hq c hc).2)]
      simp [Call.isScheduleAdvanceFrame]
  · intro hb
    refine ⟨countP_eq_zero_of_all
      (VivictPP.seek_buffered_no_pipeline_seek w v target hb).callsSince_all, ?_⟩
    by_cases hp : v.state.playbackState = PlaybackState.PLAYING
    · rw [(VivictPP.seek_of_buffered_playing w v target hb hp).1]
    · rw [(VivictPP.seek_of_buffered_not_playing w v target hb hp).1]

/-- Witness for C8: a target that is not buffered, and one that is. -/
theorem seek_pipeline_witness :
    (VivictPP.seek World.still
        (VivictPP.sample PlaybackState.STOPPED (Dbl.fin 0) (Dbl.fin 0)) (Dbl.fin 5)).state.seeking
        = true
      ∧ (VivictPP.seek World.ready
        (VivictPP.sample PlaybackState.STOPPED (Dbl.fin 0) (Dbl.fin 0)) (Dbl.fin 5)).state.seeking
        = false :=
  ⟨((seek_pipeline World.still
      (VivictPP.sample PlaybackState.STOPPED (Dbl.fin 0) (Dbl.fin 0)) (Dbl.fin 5)).1 rfl).1,
   ((seek_pipeline World.ready
      (VivictPP.sample PlaybackState.STOPPED (Dbl.fin 0) (Dbl.fin 0)) (Dbl.fin 5)).2 rfl).2⟩

/-- While STOPPED with a known target, ticks of `advanceFrame` keep `playbackState` and
`nextPts`, and `pts` is either what it was or the target. -/
theorem ticks_of_stopped (w : World) (n : Nat) (v : VivictPP) (p0 : Dbl)
    (hp : v.state.playbackState = PlaybackState.STOPPED)
    (hn : v.state.nextPts.isnan = false)
    (hpts : v.state.pts = p0 ∨ v.state.pts = v.state.nextPts) :
    (ticks w n v).state.playbackState = PlaybackState.STOPPED
      ∧ (ticks w n v).state.nextPts = v.state.nextPts
      ∧ ((ticks w n v).state.pts = p0 ∨ (ticks w n v).state.pts = v.state.nextPts) := by
  induction n generalizing v with
  | zero => exact ⟨hp, rfl, hpts⟩
  | succ n ih =>
    have hs := VivictPP.advanceFrame_state_of_not_playing w v hn (by rw [hp]; decide)
    have h1 : (VivictPP.advanceFrame w v).state.playbackState = PlaybackState.STOPPED := by
      rw [hs]; split_ifs <;> simp [hp]
    have h2 : (VivictPP.advanceFrame w v).state.nextPts = v.state.nextPts := by
      rw [hs]; split_ifs <;> simp
    have h3 : (VivictPP.advanceFrame w v).state.pts = p0
        ∨ (VivictPP.advanceFrame w v).state.pts = (VivictPP.advanceFrame w v).state.nextPts := by
      rw [h2, hs]; split_ifs
      · right; rfl
      · exact hpts
    obtain ⟨a1, a2, a3⟩ := ih (VivictPP.advanceFrame w v) h1 (by rw [h2]; exact hn) h3
    simp only [ticks]
    exact ⟨a1, by rw [a2, h2], by rw [h2] at a3; exact a3⟩

/-- C4, the failing run: start 0, STOPPED at `pts = 2/25` after two single-frame steps,
then `seekRelative(-5)`. Whatever the frame buffers answer and however many ticks of
`advanceFrame` follow, `pts` is 2/25 (seek not settled) or -123/25 (seek settled), and
so never the stream start 0. -/
theorem seekRelative_before_start_not_clamped (w : World) (n : Nat) :
    ((ticks w n (VivictPP.seekRelative w
          (VivictPP.sample PlaybackState.STOPPED (Dbl.fin (2 / 25)) (Dbl.fin (2 / 25)))
          (Dbl.fin (-5)))).state.pts = Dbl.fin (2 / 25)
        ∨ (ticks w n (VivictPP.seekRelative w
          (VivictPP.sample PlaybackState.STOPPED (Dbl.fin (2 / 25)) (Dbl.fin (2 / 25)))
          (Dbl.fin (-5)))).state.pts = Dbl.fin (-123 / 25))
      ∧ (ticks w n (VivictPP.seekRelative w
          (VivictPP.sample PlaybackState.STOPPED (Dbl.fin (2 / 25)) (Dbl.fin (2 / 25)))
          (Dbl.fin (-5)))).state.pts ≠ Dbl.fin 0 := by
  have hseek : VivictPP.seekRelative w
      (VivictPP.sample PlaybackState.STOPPED (Dbl.fin (2 / 25)) (Dbl.fin (2 / 25))) (Dbl.fin (-5))
      = VivictPP.seek w
          (VivictPP.sample PlaybackState.STOPPED (Dbl.fin (2 / 25)) (Dbl.fin (2 / 25)))
          (Dbl.fin (-123 / 25)) := by
    simp only [VivictPP.seekRelative, VivictPP.sample, Dbl.add, Bool.false_eq_true, if_false]
    norm_num
  have hst := VivictPP.seek_state_of_not_playing w
    (VivictPP.sample PlaybackState.STOPPED (Dbl.fin (2 / 25)) (Dbl.fin (2 / 25)))
    (Dbl.fin (-123 / 25)) (by simp [VivictPP.sample])
  obtain ⟨_, a2, a3⟩ := ticks_of_stopped w n
    (VivictPP.seek w
      (VivictPP.sample PlaybackState.STOPPED (Dbl.fin (2 / 25)) (Dbl.fin (2 / 25)))
      (Dbl.fin (-123 / 25))) (Dbl.fin (2 / 25))
    (by rw [hst]; rfl) (by rw [hst]; rfl) (by rw [hst]; left; rfl)
  rw [hseek]
  have hnp : (VivictPP.seek w
      (VivictPP.sample PlaybackState.STOPPED (Dbl.fin (2 / 25)) (Dbl.fin (2 / 25)))
      (Dbl.fin (-123 / 25))).state.nextPts = Dbl.fin (-123 / 25) := by rw [hst]
  rw [hnp] at a3
  refine ⟨a3, ?_⟩
  rcases a3 with h | h <;> rw [h] <;> simp

/-! ## Packet fan-out -/

/-- The offers recorded by the loop of `doWork`: accepted by the first `n` stages, then
rejected by the next stage when there is one. -/
theorem PacketWorker.offerAll_shape (w : PWorld) (k : Packet) (stages : List Stage)
    (pw : PacketWorker) :
    ∃ n : Nat, n ≤ stages.length
      ∧ (PacketWorker.offerAll w k stages pw).1 = decide (n = stages.length)
      ∧ (PacketWorker.offerAll w k stages pw).2.trace
          = pw.trace ++ ((stages.take n).map (fun dw => PCall.offerData dw k 2 true)
              ++ (stages.drop n).head?.toList.map (fun dw => PCall.offerData dw k 2 false))
      ∧ (PacketWorker.offerAll w k stages pw).2.currentPacket = pw.currentPacket
      ∧ (PacketWorker.offerAll w k stages pw).2.decoderWorkers = pw.decoderWorkers := by
  induction stages generalizing pw with
  | nil => exact ⟨0, le_refl _, by simp [PacketWorker.offerAll], by simp [PacketWorker.offerAll],
      rfl, rfl⟩
  | cons dw rest ih =>
    by_cases h : w.offerData pw.trace dw k = true
    · obtain ⟨n, hn, h1, h2, h3, h4⟩ := ih (pw.emit (PCall.offerData dw k 2 true))
      have e : PacketWorker.offerAll w k (dw :: rest) pw
          = PacketWorker.offerAll w k rest (pw.emit (PCall.offerData dw k 2 true)) := by
        simp only [PacketWorker.offerAll, h, if_true]
      rw [e]
      refine ⟨n + 1, by simpa using hn, ?_, ?_, ?_, ?_⟩
      · rw [h1]; simp
      · rw [h2]; simp [PacketWorker.emit]
      · rw [h3]; rfl
      · rw [h4]; rfl
    · refine ⟨0, by simp, ?_, ?_, ?_, ?_⟩ <;> simp [PacketWorker.offerAll, h, PacketWorker.emit]

/-- The packet that one iteration of `doWork` works on: the held one, or else the one
pulled from the source. -/
theorem PacketWorker.doWork_shape (w : PWorld) (pw : PacketWorker) (k : Packet)
    (hs : pw.decoderWorkers ≠ [])
    (hk : pw.currentPacket = some k ∨ (pw.currentPacket = none ∧ w.nextPacket pw.trace = some k)) :
    ∃ n : Nat, n ≤ pw.decoderWorkers.length
      ∧ callsSince pw.trace (PacketWorker.doWork w pw).trace
          = (if pw.currentPacket = none then [PCall.nextPacket] else [])
            ++ ((pw.decoderWorkers.take n).map (fun dw => PCall.offerData dw k 2 true)
            ++ (if n = pw.decoderWorkers.length then [PCall.unref k]
                else (pw.decoderWorkers.drop n).head?.toList.map
                  (fun dw => PCall.offerData dw k 2 false)))
      ∧ (PacketWorker.doWork w pw).currentPacket
          = (if n = pw.decoderWorkers.length then none else some k)
      ∧ (PacketWorker.doWork w pw).decoderWorkers = pw.decoderWorkers := by
  obtain ⟨stages, cur, tr⟩ := pw
  simp only at hs hk
  have hd : (PacketWorker.hasDecoders ⟨stages, cur, tr⟩) = true := by
    cases stages with
    | nil => exact absurd rfl hs
    | cons a l => rfl
  rcases hk with hk | ⟨hk, hnext⟩
  · subst hk
    obtain ⟨n, hn, h1, h2, h3, h4⟩ := PacketWorker.offerAll_shape w k stages ⟨stages, some k, tr⟩
    refine ⟨n, hn, ?_⟩
    simp only [PacketWorker.doWork, hd]
    by_cases hnl : n = stages.length
    · simp [hnl, h1, h2, h3, h4, PacketWorker.unrefCurrentPacket, PacketWorker.emit, callsSince]
    · simp [hnl, h1, h2, h3, h4, callsSince]
  · subst hk
    obtain ⟨n, hn, h1, h2, h3, h4⟩ := PacketWorker.offerAll_shape w k stages
      ⟨stages, some k, tr ++ [PCall.nextPacket]⟩
    refine ⟨n, hn, ?_⟩
    simp only [PacketWorker.doWork, hd, hnext, PacketWorker.emit]
    by_cases hnl : n = stages.length
    · simp [hnl, h1, h2, h3, h4, PacketWorker.unrefCurrentPacket, PacketWorker.emit, callsSince]
    · simp [hnl, h1, h2, h3, h4, callsSince]

/-- The three ways one iteration of `doWork` can go: no stage registered; no packet held
and the source exhausted; a packet in hand that is offered to the stages. -/
theorem PacketWorker.doWork_cases (w : PWorld) (pw : PacketWorker) :
    (pw.decoderWorkers = []
        ∧ callsSince pw.trace (PacketWorker.doWork w pw).trace = [PCall.usleep 5000]
        ∧ (PacketWorker.doWork w pw).currentPacket = pw.currentPacket)
      ∨ (pw.decoderWorkers ≠ [] ∧ pw.currentPacket = none ∧ w.nextPacket pw.trace = none
        ∧ callsSince pw.trace (PacketWorker.doWork w pw).trace
            = [PCall.nextPacket, PCall.usleep 5000]
        ∧ (PacketWorker.doWork w pw).currentPacket = none)
      ∨ (pw.decoderWorkers ≠ [] ∧ ∃ k : Packet,
          (pw.currentPacket = some k
            ∨ (pw.currentPacket = none ∧ w.nextPacket pw.trace = some k))
          ∧ ∃ n : Nat, n ≤ pw.decoderWorkers.length
            ∧ callsSince pw.trace (PacketWorker.doWork w pw).trace
                = (if pw.currentPacket = none then [PCall.nextPacket] else [])
                  ++ ((pw.decoderWorkers.take n).map (fun dw => PCall.offerData dw k 2 true)
                  ++ (if n = pw.decoderWorkers.length then [PCall.unref k]
                      else (pw.decoderWorkers.drop n).head?.toList.map
                        (fun dw => PCall.offerData dw k 2 false)))
            ∧ (PacketWorker.doWork w pw).currentPacket
                = (if n = pw.decoderWorkers.length then none else some k)) := by
  by_cases hs : pw.decoderWorkers = []
  · left
    obtain ⟨stages, cur, tr⟩ := pw
    simp only at hs
    subst hs
    simp [PacketWorker.doWork, PacketWorker.hasDecoders, PacketWorker.emit, callsSince]
  · right
    cases hc : pw.currentPacket with
    | some k =>
      right
      obtain ⟨n, hn, h1, h2, _⟩ := PacketWorker.doWork_shape w pw k hs (Or.inl hc)
      rw [hc] at h1
      exact ⟨hs, k, Or.inl rfl, n, hn, h1, h2⟩
    | none =>
      cases hn : w.nextPacket pw.trace with
      | some k =>
        right
        obtain ⟨n, hn, h1, h2, _⟩ := PacketWorker.doWork_shape w pw k hs (Or.inr ⟨hc, hn⟩)
        rw [hc] at h1
        exact ⟨hs, k, Or.inr ⟨rfl, rfl⟩, n, hn, h1, h2⟩
      | none =>
        left
        obtain ⟨stages, cur, tr⟩ := pw
        simp only at hs hc hn
        subst hc
        have hd : (PacketWorker.hasDecoders ⟨stages, none, tr⟩) = true := by
          cases stages with
          | nil => exact absurd rfl hs
          | cons a l => rfl
        simp [PacketWorker.doWork, hd, hn, PacketWorker.emit, callsSince, hs]

theorem countP_isAccepted_accepted (k : Packet) (l : List Stage) :
    (l.map (fun dw => PCall.offerData dw k 2 true)).countP PCall.isAccepted = l.length := by
  induction l with
  | nil => rfl
  | cons a l ih => simp [List.countP_cons, ih, PCall.isAccepted]

theorem countP_isAccepted_rejected (k : Packet) (l : List Stage) :
    (l.map (fun dw => PCall.offerData dw k 2 false)).countP PCall.isAccepted = 0 := by
  induction l with
  | nil => rfl
  | cons a l ih => simp [List.countP_cons, ih, PCall.isAccepted]

/-- C2, as amended: with a stage registered and packet `k` held, one iteration of `doWork`
offers `k` to the stages in registration order and stops at the first that rejects: for
some `n`, the first `n` stages accepted `k`, stage `n + 1` (if there is one) rejected it and
no later stage was offered it; the packet is released when `n` is the number of stages
and stays held otherwise. -/
theorem doWork_fanout (w : PWorld) (pw : PacketWorker) (k : Packet)
    (hs : pw.decoderWorkers ≠ []) (hk : pw.currentPacket = some k) :
    ∃ n : Nat, n ≤ pw.decoderWorkers.length
      ∧ callsSince pw.trace (PacketWorker.doWork w pw).trace
          = (pw.decoderWorkers.take n).map (fun dw => PCall.offerData dw k 2 true)
            ++ (if n = pw.decoderWorkers.length then [PCall.unref k]
                else (pw.decoderWorkers.drop n).head?.toList.map
                  (fun dw => PCall.offerData dw k 2 false))
      ∧ (PacketWorker.doWork w pw).currentPacket
          = (if n = pw.decoderWorkers.length then none else some k) := by
  obtain ⟨n, hn, h1, h2, _⟩ := PacketWorker.doWork_shape w pw k hs (Or.inl hk)
  refine ⟨n, hn, ?_, h2⟩
  rw [h1, hk]
  simp

/-- Witness for C2 as amended: stages 0 and 1, packet 7 held. -/
theorem doWork_fanout_witness :
    ∃ n : Nat, n ≤ PacketWorker.sample.decoderWorkers.length
      ∧ callsSince PacketWorker.sample.trace
          (PacketWorker.doWork PWorld.onlyStageZero PacketWorker.sample).trace
          = (PacketWorker.sample.decoderWorkers.take n).map (fun dw => PCall.offerData dw 7 2 true)
            ++ (if n = PacketWorker.sample.decoderWorkers.length then [PCall.unref 7]
                else (PacketWorker.sample.decoderWorkers.drop n).head?.toList.map
                  (fun dw => PCall.offerData dw 7 2 false))
      ∧ (PacketWorker.doWork PWorld.onlyStageZero PacketWorker.sample).currentPacket
          = (if n = PacketWorker.sample.decoderWorkers.length then none else some 7) :=
  doWork_fanout PWorld.onlyStageZero PacketWorker.sample 7 (by decide) rfl

/-- C2 as stated fails: with stages 0 and 1 registered and packet 7 held, stage 0 accepting
and stage 1 reporting backpressure, the iteration ends with stage 0 having accepted the
packet and stage 1 not. -/
theorem doWork_fanout_counterexample :
    ¬ ((∀ dw ∈ PacketWorker.sample.decoderWorkers,
          (callsSince PacketWorker.sample.trace
            (PacketWorker.doWork PWorld.onlyStageZero PacketWorker.sample).trace).any
              (PCall.isAcceptedBy dw 7) = true)
      ∨ (∀ dw ∈ PacketWorker.sample.decoderWorkers,
          (callsSince PacketWorker.sample.trace
            (PacketWorker.doWork PWorld.onlyStageZero PacketWorker.sample).trace).any
              (PCall.isAcceptedBy dw 7) = false)) := by
  decide

/-- C9: one iteration of `doWork` releases the packet (`av_packet_unref`, `currentPacket`
set to null) exactly when a stage is registered, a packet is held or was pulled, and
every registered stage accepted the offer; when a stage rejects, the same packet stays
held; the source is asked for a packet exactly when a stage is registered and no packet
is held, so a held packet is either still held afterwards or was accepted by all. -/
theorem doWork_release (w : PWorld) (pw : PacketWorker) :
    (∀ k : Packet, PCall.unref k ∈ callsSince pw.trace (PacketWorker.doWork w pw).trace ↔
        (pw.decoderWorkers ≠ []
          ∧ (pw.currentPacket = some k
              ∨ (pw.currentPacket = none ∧ w.nextPacket pw.trace = some k))
          ∧ (callsSince pw.trace (PacketWorker.doWork w pw).trace).countP PCall.isAccepted
              = pw.decoderWorkers.length))
      ∧ (∀ k : Packet, PCall.unref k ∈ callsSince pw.trace (PacketWorker.doWork w pw).trace →
          (PacketWorker.doWork w pw).currentPacket = none)
      ∧ (∀ (k : Packet) (dw : Stage),
          PCall.offerData dw k 2 false ∈ callsSince pw.trace (PacketWorker.doWork w pw).trace →
            (pw.currentPacket = some k
              ∨ (pw.currentPacket = none ∧ w.nextPacket pw.trace = some k))
            ∧ (PacketWorker.doWork w pw).currentPacket = some k)
      ∧ (PCall.nextPacket ∈ callsSince pw.trace (PacketWorker.doWork w pw).trace ↔
          (pw.decoderWorkers ≠ [] ∧ pw.currentPacket = none))
      ∧ (∀ k : Packet, pw.currentPacket = some k →
          (PacketWorker.doWork w pw).currentPacket = some k
            ∨ ((PacketWorker.doWork w pw).currentPacket = none
              ∧ (callsSince pw.trace (PacketWorker.doWork w pw).trace).countP PCall.isAccepted
                  = pw.decoderWorkers.length)) := by
  rcases PacketWorker.doWork_cases w pw with ⟨hs, hc, hp⟩ | ⟨hs, hcur, hnext, hc, hp⟩
    | ⟨hs, k0, hk, n, hn, hc, hp⟩
  · rw [hc, hp]
    refine ⟨?_, ?_, ?_, ?_, ?_⟩
    · intro k; simp [hs]
    · intro k; simp
    · intro k dw; simp
    · simp [hs]
    · intro k hk; exact Or.inl hk
  · rw [hc, hp]
    refine ⟨?_, ?_, ?_, ?_, ?_⟩
    · intro k; simp [hcur, hnext]
    · intro k; simp
    · intro k dw; simp
    · simp [hs, hcur]
    · intro k hk; rw [hcur] at hk; exact absurd hk (by simp)
  · have hcount : (callsSince pw.trace (PacketWorker.doWork w pw).trace).countP PCall.isAccepted
        = n := by
      rw [hc]
      simp only [List.countP_append, countP_isAccepted_accepted]
      have h0 : (if pw.currentPacket = none then [PCall.nextPacket] else []).countP
          PCall.isAccepted = 0 := by split_ifs <;> simp [PCall.isAccepted]
      have h1 : (if n = pw.decoderWorkers.length then [PCall.unref k0]
          else (pw.decoderWorkers.drop n).head?.toList.map
            (fun dw => PCall.offerData dw k0 2 false)).countP PCall.isAccepted = 0 := by
        split_ifs
        · simp [PCall.isAccepted]
        · exact countP_isAccepted_rejected k0 _
      rw [h0, h1, List.length_take]
      omega
    have hin : ∀ k : Packet,
        (pw.currentPacket = some k ∨ (pw.currentPacket = none ∧ w.nextPacket pw.trace = some k))
          ↔ k = k0 := by
      intro k
      rcases hk with hk | ⟨hk1, hk2⟩
      · rw [hk]; simp [eq_comm]
      · rw [hk1, hk2]; simp [eq_comm]
    rw [hcount]
    generalize List.take n pw.decoderWorkers = acc at hc
    generalize (List.drop n pw.decoderWorkers).head?.toList = rej at hc
    refine ⟨?_, ?_, ?_, ?_, ?_⟩
    · intro k
      rw [hin k, hc]
      by_cases hnl : n = pw.decoderWorkers.length
      · by_cases hcn : pw.currentPacket = none <;> simp [hnl, hcn, hs, eq_comm]
      · by_cases hcn : pw.currentPacket = none <;> simp [hnl, hcn, hs]
    · intro k
      rw [hc, hp]
      by_cases hnl : n = pw.decoderWorkers.length
      · simp [hnl]
      · by_cases hcn : pw.currentPacket = none <;> simp [hnl, hcn]
    · intro k dw
      rw [hin k, hc, hp]
      by_cases hnl : n = pw.decoderWorkers.length
      · by_cases hcn : pw.currentPacket = none <;> simp [hnl, hcn]
      · by_cases hcn : pw.currentPacket = none <;> simp [hnl, hcn] <;> intro _ _ _ h <;> simp [h]
    · rw [hc]
      by_cases hnl : n = pw.decoderWorkers.length
      · by_cases hcn : pw.currentPacket = none <;> simp [hnl, hcn, hs]
      · by_cases hcn : pw.currentPacket = none <;> simp [hnl, hcn, hs]
    · intro k hk1
      have hkk : k = k0 := (hin k).mp (Or.inl hk1)
      rw [hp, hkk]
      by_cases hnl : n = pw.decoderWorkers.length
      · right; simp [hnl]
      · left; simp [hnl]

/-! ## The seek command of the packet worker -/

/-- The seek requests recorded by the loop of the seek command: one per registered stage,
in registration order. -/
theorem PacketWorker.seekStages_shape (pos : Time) (cb : Callback) (stages : List Stage)
    (pw : PacketWorker) :
    (PacketWorker.seekStages pos cb stages pw).trace
        = pw.trace ++ stages.map (fun dw => PCall.stageSeek dw pos cb)
      ∧ (PacketWorker.seekStages pos cb stages pw).currentPacket = pw.currentPacket
      ∧ (PacketWorker.seekStages pos cb stages pw).decoderWorkers = pw.decoderWorkers := by
  induction stages generalizing pw with
  | nil => simp [PacketWorker.seekStages]
  | cons dw rest ih =>
    obtain ⟨h1, h2, h3⟩ := ih (pw.emit (PCall.stageSeek dw pos cb))
    simp only [PacketWorker.seekStages]
    rw [h1, h2, h3]
    simp [PacketWorker.emit]

/-- C10: the seek command always returns true. When the source seek raises, the callback
is invoked exactly once, with `(NO_TIME, true)`, no stage is asked to seek, and the held
packet and the stage list stay as they were. When the source seek succeeds, the held
packet is discarded, every registered stage is asked once, in registration order, to
seek to `pos` with the callback, and the command body does not invoke the callback. -/
theorem seekCommand_spec (w : PWorld) (pw : PacketWorker) (pos : Time) (cb : Callback) :
    (PacketWorker.seekCommand w pw pos cb).1 = true
      ∧ (PacketWorker.seekCommand w pw pos cb).2.decoderWorkers = pw.decoderWorkers
      ∧ (w.seekRaises pw.trace pos = true →
          callsSince pw.trace (PacketWorker.seekCommand w pw pos cb).2.trace
              = [PCall.sourceSeek pos, PCall.callback cb w.NO_TIME true]
          ∧ (callsSince pw.trace (PacketWorker.seekCommand w pw pos cb).2.trace).countP
              PCall.isCallback = 1
          ∧ (callsSince pw.trace (PacketWorker.seekCommand w pw pos cb).2.trace).countP
              PCall.isStageSeek = 0
          ∧ (PacketWorker.seekCommand w pw pos cb).2.currentPacket = pw.currentPacket)
      ∧ (w.seekRaises pw.trace pos = false →
          callsSince pw.trace (PacketWorker.seekCommand w pw pos cb).2.trace
              = [PCall.sourceSeek pos]
                ++ (pw.currentPacket.toList.map PCall.unref
                ++ pw.decoderWorkers.map (fun dw => PCall.stageSeek dw pos cb))
          ∧ (callsSince pw.trace (PacketWorker.seekCommand w pw pos cb).2.trace).filter
              PCall.isStageSeek = pw.decoderWorkers.map (fun dw => PCall.stageSeek dw pos cb)
          ∧ (callsSince pw.trace (PacketWorker.seekCommand w pw pos cb).2.trace).countP
              PCall.isCallback = 0
          ∧ (PacketWorker.seekCommand w pw pos cb).2.currentPacket = none) := by
  obtain ⟨stages, cur, tr⟩ := pw
  refine ⟨?_, ?_, ?_, ?_⟩
  · simp only [PacketWorker.seekCommand]; split_ifs <;> rfl
  · simp only [PacketWorker.seekCommand]
    split_ifs
    · rfl
    · rw [(PacketWorker.seekStages_shape pos cb _ _).2.2]
      cases cur <;> rfl
  · intro hr
    simp [PacketWorker.seekCommand, hr, PacketWorker.emit, callsSince, PCall.isCallback,
      PCall.isStageSeek]
  · intro hr
    have hshape : callsSince tr (PacketWorker.seekCommand w ⟨stages, cur, tr⟩ pos cb).2.trace
        = [PCall.sourceSeek pos]
          ++ (cur.toList.map PCall.unref
          ++ stages.map (fun dw => PCall.stageSeek dw pos cb)) := by
      simp only [PacketWorker.seekCommand, hr, Bool.false_eq_true, if_false]
      rw [(PacketWorker.seekStages_shape pos cb _ _).1]
      cases cur <;> simp [PacketWorker.unrefCurrentPacket, PacketWorker.emit, callsSince]
    refine ⟨hshape, ?_, ?_, ?_⟩
    · rw [hshape]
      have hfs : ∀ l : List Stage, (l.map (fun dw => PCall.stageSeek dw pos cb)).filter
          PCall.isStageSeek = l.map (fun dw => PCall.stageSeek dw pos cb) := by
        intro l
        rw [List.filter_eq_self]
        intro c hc
        obtain ⟨dw, _, rfl⟩ := List.mem_map.mp hc
        rfl
      cases cur <;> simp [List.filter_cons, PCall.isStageSeek, hfs]
    · rw [hshape]
      have hcs : ∀ l : List Stage, (l.map (fun dw => PCall.stageSeek dw pos cb)).countP
          PCall.isCallback = 0 := by
        intro l
        apply List.countP_eq_zero.mpr
        intro c hc
        obtain ⟨dw, _, rfl⟩ := List.mem_map.mp hc
        simp [PCall.isCallback]
      cases cur <;> simp [List.countP_cons, PCall.isCallback, hcs]
    · simp only [PacketWorker.seekCommand, hr, Bool.false_eq_true, if_false]
      rw [(PacketWorker.seekStages_shape pos cb _ _).2.1]
      cases cur <;> rfl

/-- Witness for C10: a source seek that raises, and one that does not. -/
theorem seekCommand_spec_witness :
    callsSince PacketWorker.sample.trace
        (PacketWorker.seekCommand PWorld.seekFails PacketWorker.sample 3 9).2.trace
        = [PCall.sourceSeek 3, PCall.callback 9 PWorld.seekFails.NO_TIME true]
      ∧ callsSince PacketWorker.sample.trace
        (PacketWorker.seekCommand PWorld.onlyStageZero PacketWorker.sample 3 9).2.trace
        = [PCall.sourceSeek 3, PCall.unref 7, PCall.stageSeek 0 3 9, PCall.stageSeek 1 3 9] :=
  ⟨((seekCommand_spec PWorld.seekFails PacketWorker.sample 3 9).2.2.1 rfl).1,
   ((seekCommand_spec PWorld.onlyStageZero PacketWorker.sample 3 9).2.2.2 rfl).1⟩

/-! ## The tick -/

theorem Extends.exists_append {P : Call → Prop} {t1 t2 : Trace} (h : Extends P t1 t2) :
    ∃ l : List Call, t2 = t1 ++ l ∧ ∀ c ∈ l, P c := h

/-- What lines 82-87 of `advanceFrame` do: `nextPts` is replaced by the answer of
`videoInputs.nextPts()` when it was NaN, and an advance is scheduled when the answer is
not NaN. -/
theorem VivictPP.resolveNextPts_facts (w : World) (v : VivictPP) :
    (VivictPP.resolveNextPts w v).state =
        { v.state with
          nextPts := if v.state.nextPts.isnan then w.nextPts v.trace else v.state.nextPts }
      ∧ (VivictPP.resolveNextPts w v).hasAudioOutput = v.hasAudioOutput
      ∧ (VivictPP.resolveNextPts w v).frameDuration = v.frameDuration
      ∧ ∃ d : Int, (VivictPP.resolveNextPts w v).trace = v.trace ++
          (if v.state.nextPts.isnan then
            (if (w.nextPts v.trace).isnan then [Call.nextPts]
              else [Call.nextPts, Call.diffMicros (w.toMicros v.state.pts), Call.clock,
                Call.scheduleAdvanceFrame d])
            else []) := by
  obtain ⟨⟨ps, pts, np, sk, sf, lfa⟩, fd, hao, tr⟩ := v
  cases hn : np.isnan with
  | false =>
    simp only [VivictPP.resolveNextPts, hn, Bool.false_eq_true, if_false]
    exact ⟨trivial, trivial, trivial, 0, by simp⟩
  | true =>
    cases hq : (w.nextPts tr).isnan with
    | true =>
      simp only [VivictPP.resolveNextPts, hn, hq, if_true, Bool.not_true, Bool.false_eq_true,
        if_false, VivictPP.emit]
      exact ⟨trivial, trivial, trivial, 0, trivial⟩
    | false =>
      simp only [VivictPP.resolveNextPts, hn, hq, if_true, Bool.not_false,
        VivictPP.nextFrameDelay, VivictPP.emit]
      refine ⟨trivial, trivial, trivial, (VivictPP.nextFrameDelay w
        ⟨⟨ps, pts, w.nextPts tr, sk, sf, lfa⟩, fd, hao, tr ++ [Call.nextPts]⟩).1, ?_⟩
      simp [VivictPP.nextFrameDelay]

/-- What lines 102-113 of `advanceFrame` do: nothing unless PLAYING; while PLAYING one
advance is scheduled. Neither `pts`, `seeking` nor `playbackState` changes. -/
theorem VivictPP.scheduleNext_facts (w : World) (v : VivictPP) (wasSeeking : Bool) :
    (VivictPP.scheduleNext w v wasSeeking).state.pts = v.state.pts
      ∧ (VivictPP.scheduleNext w v wasSeeking).state.seeking = v.state.seeking
      ∧ (VivictPP.scheduleNext w v wasSeeking).state.playbackState = v.state.playbackState
      ∧ (v.state.playbackState ≠ PlaybackState.PLAYING →
          VivictPP.scheduleNext w v wasSeeking = v)
      ∧ ∃ l : List Call, (VivictPP.scheduleNext w v wasSeeking).trace = v.trace ++ l
          ∧ (∀ c ∈ l, c.isVideoStep = false ∧ c.isScheduleRefreshDisplay = false)
          ∧ l.countP Call.isScheduleAdvanceFrame
              = (if v.state.playbackState = PlaybackState.PLAYING then 1 else 0) := by
  obtain ⟨⟨ps, pts, np, sk, sf, lfa⟩, fd, hao, tr⟩ := v
  by_cases hp : ps = PlaybackState.PLAYING
  · subst hp
    simp only [VivictPP.scheduleNext, if_true, VivictPP.nextFrameDelay, VivictPP.emit]
    refine ⟨?_, ?_, ?_, ?_, ?_⟩
    · split_ifs <;> rfl
    · split_ifs <;> rfl
    · split_ifs <;> rfl
    · intro h; exact absurd rfl h
    · cases wasSeeking <;>
        by_cases hq : (w.nextPts tr).isnan = true <;>
        by_cases hq2 : (w.nextPts (tr ++ [Call.playbackStart (w.toMicros pts)])).isnan = true <;>
        simp [hq, hq2, Call.isVideoStep, Call.isScheduleRefreshDisplay,
          Call.isScheduleAdvanceFrame, List.countP_cons]
  · simp only [VivictPP.scheduleNext, hp, if_false]
    exact ⟨trivial, trivial, trivial, fun _ => trivial, [], by simp, by simp, by simp⟩

/-- A tick of `advanceFrame` whose readiness test fails: the state is the one left by
lines 82-87, and the calls after them are the readiness queries, the drop request and a
retry after 5 ms. -/
theorem VivictPP.advanceFrame_not_ready (w : World) (v : VivictPP)
    (hb : targetBuffered w (VivictPP.resolveNextPts w v)
      (VivictPP.resolveNextPts w v).state.nextPts = false) :
    (VivictPP.advanceFrame w v).state = (VivictPP.resolveNextPts w v).state
      ∧ (VivictPP.advanceFrame w v).trace
          = (VivictPP.resolveNextPts w v).trace
            ++ readyQueries w (VivictPP.resolveNextPts w v)
                (VivictPP.resolveNextPts w v).state.nextPts
            ++ [Call.dropIfFullAndNextOutOfRange (VivictPP.resolveNextPts w v).state.pts
                  (if (VivictPP.resolveNextPts w v).state.seeking then 0 else 1),
                Call.scheduleAdvanceFrame 5] := by
  simp only [VivictPP.advanceFrame]
  generalize VivictPP.resolveNextPts w v = v0 at hb ⊢
  have h1 := VivictPP.checkReady_fst w v0
  obtain ⟨h2, h3, h4, h5⟩ := VivictPP.checkReady_snd w v0
  rw [hb] at h1
  generalize VivictPP.checkReady w v0 = r at h1 h2 h3 h4 h5 ⊢
  obtain ⟨b, ⟨st1, fd1, hao1, tr1⟩⟩ := r
  simp only at h1 h2 h3 h4 h5
  subst h1 h2 h3 h4 h5
  simp

/-- A tick of `advanceFrame` whose readiness test holds: the target is committed, and
the calls after lines 82-87 are the readiness queries, the audio resync when a seek was
in flight, one step of the video buffers, what lines 102-113 do, and one display refresh
with delay 0. -/
theorem VivictPP.advanceFrame_ready (w : World) (v : VivictPP)
    (hb : targetBuffered w (VivictPP.resolveNextPts w v)
      (VivictPP.resolveNextPts w v).state.nextPts = true) :
    (VivictPP.advanceFrame w v).state.pts = (VivictPP.resolveNextPts w v).state.nextPts
      ∧ (VivictPP.advanceFrame w v).state.seeking = false
      ∧ (VivictPP.advanceFrame w v).state.playbackState
          = (VivictPP.resolveNextPts w v).state.playbackState
      ∧ ((VivictPP.resolveNextPts w v).state.playbackState ≠ PlaybackState.PLAYING →
          (VivictPP.advanceFrame w v).state.nextPts = (VivictPP.resolveNextPts w v).state.nextPts)
      ∧ ∃ A S : List Call,
          (VivictPP.advanceFrame w v).trace
            = (VivictPP.resolveNextPts w v).trace
              ++ readyQueries w (VivictPP.resolveNextPts w v)
                  (VivictPP.resolveNextPts w v).state.nextPts
              ++ A
              ++ [if (VivictPP.resolveNextPts w v).state.nextPts.gt
                      (VivictPP.resolveNextPts w v).state.pts
                    || (VivictPP.resolveNextPts w v).state.seeking
                  then Call.stepForward (VivictPP.resolveNextPts w v).state.nextPts
                  else Call.stepBackward (VivictPP.resolveNextPts w v).state.nextPts]
              ++ S ++ [Call.scheduleRefreshDisplay 0]
          ∧ (∀ c ∈ A, c.isAudio = true)
          ∧ (∀ c ∈ S, c.isVideoStep = false ∧ c.isScheduleRefreshDisplay = false)
          ∧ S.countP Call.isScheduleAdvanceFrame
              = (if (VivictPP.resolveNextPts w v).state.playbackState = PlaybackState.PLAYING
                  then 1 else 0) := by
  simp only [VivictPP.advanceFrame]
  generalize VivictPP.resolveNextPts w v = v0 at hb ⊢
  have h1 := VivictPP.checkReady_fst w v0
  obtain ⟨h2, h3, h4, h5⟩ := VivictPP.checkReady_snd w v0
  rw [hb] at h1
  generalize hq : readyQueries w v0 v0.state.nextPts = rq at h5 ⊢
  generalize VivictPP.checkReady w v0 = r at h1 h2 h3 h4 h5 ⊢
  obtain ⟨⟨ps, pts, np, sk, sf, lfa⟩, fd, hao, tr⟩ := v0
  obtain ⟨b, ⟨st1, fd1, hao1, tr1⟩⟩ := r
  simp only at h1 h2 h3 h4 h5
  subst h1 h2 h3 h4 h5
  simp only [if_true]
  -- the audio resync
  have ha : ∃ A : List Call,
      (if sk = true then
          VivictPP.audioSeek w ⟨⟨ps, pts, np, sk, sf, lfa⟩, fd1, hao1, tr ++ rq⟩ np
        else ⟨⟨ps, pts, np, sk, sf, lfa⟩, fd1, hao1, tr ++ rq⟩)
        = ⟨⟨ps, pts, np, sk, sf, lfa⟩, fd1, hao1, tr ++ rq ++ A⟩
      ∧ ∀ c ∈ A, c.isAudio = true := by
    cases sk with
    | false => exact ⟨[], by simp, by simp⟩
    | true =>
      obtain ⟨A, hA1, hA2⟩ := VivictPP.audioSeek_extends w
        ⟨⟨ps, pts, np, true, sf, lfa⟩, fd1, hao1, tr ++ rq⟩ np
      refine ⟨A, ?_, hA2⟩
      have e1 := VivictPP.audioSeek_state w ⟨⟨ps, pts, np, true, sf, lfa⟩, fd1, hao1, tr ++ rq⟩ np
      have e2 := VivictPP.audioSeek_hasAudioOutput w
        ⟨⟨ps, pts, np, true, sf, lfa⟩, fd1, hao1, tr ++ rq⟩ np
      have e3 := VivictPP.audioSeek_frameDuration w
        ⟨⟨ps, pts, np, true, sf, lfa⟩, fd1, hao1, tr ++ rq⟩ np
      generalize VivictPP.audioSeek w ⟨⟨ps, pts, np, true, sf, lfa⟩, fd1, hao1, tr ++ rq⟩ np
        = x at hA1 e1 e2 e3 ⊢
      obtain ⟨xs, xf, xh, xt⟩ := x
      simp only at hA1 e1 e2 e3
      subst hA1 e1 e2 e3
      simp
  obtain ⟨A, hA1, hA2⟩ := ha
  simp only [VivictPP.emit_state, VivictPP.emit_trace]
  rw [hA1]
  simp only [VivictPP.emit]
  obtain ⟨s1, s2, s3, s4, S, s5, s6, s7⟩ := VivictPP.scheduleNext_facts w
    ⟨⟨ps, np, np, false, sf, lfa⟩, fd1, hao1,
      tr ++ rq ++ A ++ [if (np.gt pts || sk) = true then Call.stepForward np
        else Call.stepBackward np]⟩ sk
  have hstep : (if (np.gt pts || sk) = true then
        (⟨⟨ps, pts, np, sk, sf, lfa⟩, fd1, hao1, tr ++ rq ++ A ++ [Call.stepForward np]⟩ : VivictPP)
      else ⟨⟨ps, pts, np, sk, sf, lfa⟩, fd1, hao1, tr ++ rq ++ A ++ [Call.stepBackward np]⟩)
      = ⟨⟨ps, pts, np, sk, sf, lfa⟩, fd1, hao1,
          tr ++ rq ++ A ++ [if (np.gt pts || sk) = true then Call.stepForward np
            else Call.stepBackward np]⟩ := by
    split_ifs <;> rfl
  rw [hstep]
  simp only at s1 s2 s3 s4 s5 s7 ⊢
  refine ⟨s1, s2, s3, ?_, A, S, ?_, hA2, s6, s7⟩
  · intro hp
    rw [s4 hp]
  · rw [s5]

theorem VivictPP.resolveNextPts_of_known (w : World) (v : VivictPP)
    (hn : v.state.nextPts.isnan = false) : VivictPP.resolveNextPts w v = v := by
  simp [VivictPP.resolveNextPts, hn]

theorem isAudio_not_isVideoStep (c : Call) (h : c.isAudio = true) : c.isVideoStep = false := by
  cases c <;> simp_all [Call.isAudio, Call.isVideoStep]

theorem isAudio_not_isScheduleRefreshDisplay (c : Call) (h : c.isAudio = true) :
    c.isScheduleRefreshDisplay = false := by
  cases c <;> simp_all [Call.isAudio, Call.isScheduleRefreshDisplay]

theorem readyQueries_no_step (w : World) (v : VivictPP) (p : Dbl) :
    ∀ c ∈ readyQueries w v p, c.isVideoStep = false ∧ c.isScheduleRefreshDisplay = false := by
  intro c hc
  simp only [readyQueries] at hc
  split_ifs at hc <;> simp at hc <;> rcases hc with rfl | rfl <;> exact ⟨rfl, rfl⟩

/-- The number of `scheduleAdvanceFrame` requests of one tick: one when an unknown
`nextPts` is resolved on entry, plus one when the readiness test fails or, when it holds,
when the player is PLAYING. -/
theorem VivictPP.advanceFrame_schedule_count (w : World) (v : VivictPP) :
    (callsSince v.trace (VivictPP.advanceFrame w v).trace).countP Call.isScheduleAdvanceFrame
      = (if v.state.nextPts.isnan = true ∧ (w.nextPts v.trace).isnan = false then 1 else 0)
        + (if targetBuffered w (VivictPP.resolveNextPts w v)
              (VivictPP.resolveNextPts w v).state.nextPts = true
            then (if v.state.playbackState = PlaybackState.PLAYING then 1 else 0)
            else 1) := by
  obtain ⟨r1, _, _, d, r4⟩ := VivictPP.resolveNextPts_facts w v
  have hps : (VivictPP.resolveNextPts w v).state.playbackState = v.state.playbackState := by
    rw [r1]
  have hR : (if v.state.nextPts.isnan then
            (if (w.nextPts v.trace).isnan then [Call.nextPts]
              else [Call.nextPts, Call.diffMicros (w.toMicros v.state.pts), Call.clock,
                Call.scheduleAdvanceFrame d])
            else []).countP Call.isScheduleAdvanceFrame
        = (if v.state.nextPts.isnan = true ∧ (w.nextPts v.trace).isnan = false then 1 else 0) := by
    cases v.state.nextPts.isnan <;> cases (w.nextPts v.trace).isnan <;>
      simp [Call.isScheduleAdvanceFrame, List.countP_cons]
  cases hb : targetBuffered w (VivictPP.resolveNextPts w v)
      (VivictPP.resolveNextPts w v).state.nextPts with
  | false =>
    obtain ⟨_, h2⟩ := VivictPP.advanceFrame_not_ready w v hb
    rw [h2, r4]
    simp only [List.append_assoc, callsSince_append, List.countP_append, hR,
      countP_eq_zero_of_all (fun c hc => (VivictPP.readyQueries_quiet w _ _ c hc).2)]
    simp [Call.isScheduleAdvanceFrame, List.countP_cons]
  | true =>
    obtain ⟨_, _, _, _, A, S, h5, h6, _, h8⟩ := VivictPP.advanceFrame_ready w v hb
    rw [h5, r4]
    simp only [List.append_assoc, callsSince_append, List.countP_append, hR, h8, hps,
      countP_eq_zero_of_all (fun c hc => (VivictPP.readyQueries_quiet w _ _ c hc).2),
      countP_eq_zero_of_all (fun c hc => isAudio_not_isScheduleAdvanceFrame c (h6 c hc))]
    split_ifs <;> simp [Call.isScheduleAdvanceFrame, List.countP_cons]

/-- C11, as amended: from STOPPED with no seek in flight and `nextPts` known, one tick of
`advanceFrame` issues no `scheduleAdvanceFrame` request when the readiness test holds,
and exactly one, a retry after 5 ms, when it fails. -/
theorem advanceFrame_stopped_schedules (w : World) (v : VivictPP)
    (hs : v.state.playbackState = PlaybackState.STOPPED) (_hk : v.state.seeking = false)
    (hn : v.state.nextPts.isnan = false) :
    (callsSince v.trace (VivictPP.advanceFrame w v).trace).countP Call.isScheduleAdvanceFrame
        = (if targetBuffered w v v.state.nextPts = true then 0 else 1)
      ∧ (targetBuffered w v v.state.nextPts = false →
          Call.scheduleAdvanceFrame 5 ∈ callsSince v.trace (VivictPP.advanceFrame w v).trace) := by
  have hr := VivictPP.resolveNextPts_of_known w v hn
  constructor
  · rw [VivictPP.advanceFrame_schedule_count, hr]
    simp [hn, hs]
  · intro hb
    rw [← hr] at hb
    obtain ⟨_, h2⟩ := VivictPP.advanceFrame_not_ready w v hb
    rw [h2, hr, List.append_assoc, callsSince_append]
    simp

/-- Witness for C11 as amended: STOPPED at `pts = nextPts = 0` with the target
buffered. -/
theorem advanceFrame_stopped_schedules_witness :
    (callsSince (VivictPP.sample PlaybackState.STOPPED (Dbl.fin 0) (Dbl.fin 0)).trace
        (VivictPP.advanceFrame World.ready
          (VivictPP.sample PlaybackState.STOPPED (Dbl.fin 0) (Dbl.fin 0))).trace).countP
      Call.isScheduleAdvanceFrame = 0 :=
  (advanceFrame_stopped_schedules World.ready
    (VivictPP.sample PlaybackState.STOPPED (Dbl.fin 0) (Dbl.fin 0)) rfl rfl rfl).1

/-- C11 as stated fails: STOPPED with no seek in flight and nothing buffered, one tick of
`advanceFrame` schedules a retry. -/
theorem advanceFrame_stopped_schedules_counterexample :
    (VivictPP.sample PlaybackState.STOPPED (Dbl.fin 0) (Dbl.fin 0)).state.playbackState
        = PlaybackState.STOPPED
      ∧ (VivictPP.sample PlaybackState.STOPPED (Dbl.fin 0) (Dbl.fin 0)).state.seeking = false
      ∧ (callsSince (VivictPP.sample PlaybackState.STOPPED (Dbl.fin 0) (Dbl.fin 0)).trace
          (VivictPP.advanceFrame World.still
            (VivictPP.sample PlaybackState.STOPPED (Dbl.fin 0) (Dbl.fin 0))).trace).countP
          Call.isScheduleAdvanceFrame ≠ 0 := by
  refine ⟨rfl, rfl, ?_⟩
  rw [VivictPP.advanceFrame_schedule_count]
  have hr := VivictPP.resolveNextPts_of_known World.still
    (VivictPP.sample PlaybackState.STOPPED (Dbl.fin 0) (Dbl.fin 0)) rfl
  rw [hr]
  simp [targetBuffered, World.still, VivictPP.sample, Dbl.isnan]

/-- C14: when the readiness test of `advanceFrame` holds for the resolved `nextPts`, then
after the tick `pts` is that `nextPts`, `seeking` is false, `playbackState` is unchanged,
the video buffers were stepped exactly once, forward if `nextPts > pts` held or a seek was
in flight and backward otherwise, and exactly one display refresh, with delay 0, was
scheduled. -/
theorem advanceFrame_commit (w : World) (v : VivictPP)
    (hb : targetBuffered w (VivictPP.resolveNextPts w v)
      (VivictPP.resolveNextPts w v).state.nextPts = true) :
    (VivictPP.resolveNextPts w v).state.nextPts
        = (if v.state.nextPts.isnan then w.nextPts v.trace else v.state.nextPts)
      ∧ (VivictPP.advanceFrame w v).state.pts = (VivictPP.resolveNextPts w v).state.nextPts
      ∧ (VivictPP.advanceFrame w v).state.seeking = false
      ∧ (VivictPP.advanceFrame w v).state.playbackState = v.state.playbackState
      ∧ (callsSince v.trace (VivictPP.advanceFrame w v).trace).countP Call.isVideoStep = 1
      ∧ (if (VivictPP.resolveNextPts w v).state.nextPts.gt v.state.pts || v.state.seeking
          then Call.stepForward (VivictPP.resolveNextPts w v).state.nextPts
          else Call.stepBackward (VivictPP.resolveNextPts w v).state.nextPts)
          ∈ callsSince v.trace (VivictPP.advanceFrame w v).trace
      ∧ (callsSince v.trace (VivictPP.advanceFrame w v).trace).countP
          Call.isScheduleRefreshDisplay = 1
      ∧ Call.scheduleRefreshDisplay 0
          ∈ callsSince v.trace (VivictPP.advanceFrame w v).trace := by
  obtain ⟨r1, _, _, d, r4⟩ := VivictPP.resolveNextPts_facts w v
  obtain ⟨h1, h2, h3, _, A, S, h5, h6, h7, _⟩ := VivictPP.advanceFrame_ready w v hb
  have hpts : (VivictPP.resolveNextPts w v).state.pts = v.state.pts := by rw [r1]
  have hsk : (VivictPP.resolveNextPts w v).state.seeking = v.state.seeking := by rw [r1]
  have hps : (VivictPP.resolveNextPts w v).state.playbackState = v.state.playbackState := by
    rw [r1]
  have hnp : (VivictPP.resolveNextPts w v).state.nextPts
      = (if v.state.nextPts.isnan then w.nextPts v.trace else v.state.nextPts) := by rw [r1]
  rw [hpts, hsk] at h5
  have hR : ∀ c ∈ (if v.state.nextPts.isnan then
            (if (w.nextPts v.trace).isnan then [Call.nextPts]
              else [Call.nextPts, Call.diffMicros (w.toMicros v.state.pts), Call.clock,
                Call.scheduleAdvanceFrame d])
            else []), c.isVideoStep = false ∧ c.isScheduleRefreshDisplay = false := by
    intro c hc
    split_ifs at hc <;> simp at hc
    · subst hc; exact ⟨rfl, rfl⟩
    · rcases hc with rfl | rfl | rfl | rfl <;> exact ⟨rfl, rfl⟩
  have hq := readyQueries_no_step w (VivictPP.resolveNextPts w v)
    (VivictPP.resolveNextPts w v).state.nextPts
  refine ⟨hnp, h1, h2, h3.trans hps, ?_, ?_, ?_, ?_⟩
  · rw [h5, r4]
    simp only [List.append_assoc, callsSince_append, List.countP_append,
      countP_eq_zero_of_all (fun c hc => (hR c hc).1),
      countP_eq_zero_of_all (fun c hc => (hq c hc).1),
      countP_eq_zero_of_all (fun c hc => isAudio_not_isVideoStep c (h6 c hc)),
      countP_eq_zero_of_all (fun c hc => (h7 c hc).1)]
    split_ifs <;> simp [Call.isVideoStep, List.countP_cons]
  · rw [h5, r4]
    simp only [List.append_assoc, callsSince_append]
    simp
  · rw [h5, r4]
    simp only [List.append_assoc, callsSince_append, List.countP_append,
      countP_eq_zero_of_all (fun c hc => (hR c hc).2),
      countP_eq_zero_of_all (fun c hc => (hq c hc).2),
      countP_eq_zero_of_all (fun c hc => isAudio_not_isScheduleRefreshDisplay c (h6 c hc)),
      countP_eq_zero_of_all (fun c hc => (h7 c hc).2)]
    split_ifs <;> simp [Call.isScheduleRefreshDisplay, List.countP_cons]
  · rw [h5, r4]
    simp only [List.append_assoc, callsSince_append]
    simp

/-- Witness for C14: STOPPED at `pts = 0` with the buffered target 1/25. -/
theorem advanceFrame_commit_witness :
    (VivictPP.advanceFrame World.ready
        (VivictPP.sample PlaybackState.STOPPED (Dbl.fin 0) (Dbl.fin (1 / 25)))).state.pts
      = Dbl.fin (1 / 25) :=
  (advanceFrame_commit World.ready
    (VivictPP.sample PlaybackState.STOPPED (Dbl.fin 0) (Dbl.fin (1 / 25))) rfl).2.1

/-- C16, the failing runs: when `nextPts` is NaN on entry and `videoInputs.nextPts()`
answers a known pts, one tick of `advanceFrame` issues two `scheduleAdvanceFrame`
requests whenever the player is PLAYING or the readiness test fails. -/
theorem advanceFrame_rearms_twice (w : World) (v : VivictPP)
    (hn : v.state.nextPts.isnan = true) (hq : (w.nextPts v.trace).isnan = false)
    (hc : v.state.playbackState = PlaybackState.PLAYING
      ∨ targetBuffered w (VivictPP.resolveNextPts w v)
          (VivictPP.resolveNextPts w v).state.nextPts = false) :
    (callsSince v.trace (VivictPP.advanceFrame w v).trace).countP Call.isScheduleAdvanceFrame
      = 2 := by
  rw [VivictPP.advanceFrame_schedule_count]
  rcases hc with hp | hb
  · simp [hn, hq, hp]
  · simp [hn, hq, hb]

/-- Witness for C16: PLAYING with `nextPts` NaN while the frame buffer has a next frame. -/
theorem advanceFrame_rearms_twice_witness :
    (callsSince (VivictPP.sample PlaybackState.PLAYING (Dbl.fin 0) Dbl.nan).trace
        (VivictPP.advanceFrame World.playing
          (VivictPP.sample PlaybackState.PLAYING (Dbl.fin 0) Dbl.nan)).trace).countP
      Call.isScheduleAdvanceFrame = 2 :=
  advanceFrame_rearms_twice World.playing
    (VivictPP.sample PlaybackState.PLAYING (Dbl.fin 0) Dbl.nan) rfl rfl (Or.inl rfl)

/-! ## Audio feed -/

theorem dbl_div_one_fin (r : ℚ) (hr : r ≠ 0) :
    Dbl.div (Dbl.fin 1) (Dbl.fin r) = Dbl.fin (1 / r) := by
  simp [Dbl.div, hr]

theorem dbl_max_fin (a b : ℚ) : Dbl.max (Dbl.fin a) (Dbl.fin b) = Dbl.fin (max a b) := by
  simp only [Dbl.max, Dbl.lt]
  by_cases h : a < b
  · simp [h, max_eq_right (le_of_lt h)]
  · simp [h, max_eq_left (not_lt.mp h)]

/-- C13: when `metadata[0][0]` exists, the constructor with a single source returns a
controller whose `pts` and `nextPts` are the start time of that stream and whose
`frameDuration` is `1.0 / frameRate`; with another number of sources (two, in
particular) and `metadata[1][0]` present, `frameDuration` is
`1.0 / std::max(frameRate of source 0, frameRate of source 1)`. For finite frame rates
these are `1 / r0` (`r0` not zero) and `1 / max r0 r1` (the maximum not zero). -/
theorem constructor_start (config : VivictPPConfig) (e : Startup) (m0 : VideoMetadata)
    (hm0 : metadataAt e.metadata 0 = some m0) :
    (config.sourceConfigs.length = 1 →
        ∃ v : VivictPP, VivictPP.new config e = some v
          ∧ v.state.pts = m0.startTime ∧ v.state.nextPts = m0.startTime
          ∧ v.frameDuration = Dbl.div (Dbl.fin 1) m0.frameRate
          ∧ ∀ r0 : ℚ, m0.frameRate = Dbl.fin r0 → r0 ≠ 0 → v.frameDuration = Dbl.fin (1 / r0))
      ∧ (config.sourceConfigs.length ≠ 1 →
        ∀ m1 : VideoMetadata, metadataAt e.metadata 1 = some m1 →
          ∃ v : VivictPP, VivictPP.new config e = some v
            ∧ v.state.pts = m0.startTime ∧ v.state.nextPts = m0.startTime
            ∧ v.frameDuration = Dbl.div (Dbl.fin 1) (Dbl.max m0.frameRate m1.frameRate)
            ∧ ∀ r0 r1 : ℚ, m0.frameRate = Dbl.fin r0 → m1.frameRate = Dbl.fin r1 →
                max r0 r1 ≠ 0 → v.frameDuration = Dbl.fin (1 / max r0 r1)) := by
  constructor
  · intro h1
    have h : VivictPP.new config e = some
        { state := { e.initial with pts := m0.startTime, nextPts := m0.startTime }
          frameDuration := Dbl.div (Dbl.fin 1) m0.frameRate
          hasAudioOutput := !config.disableAudio && e.hasAudio && e.outputCreated
          trace := [] } := by
      simp only [VivictPP.new, hm0, h1, if_true]
    refine ⟨_, h, rfl, rfl, rfl, ?_⟩
    intro r0 hr0 hne
    simp only [hr0]
    exact dbl_div_one_fin r0 hne
  · intro h1 m1 hm1
    have h : VivictPP.new config e = some
        { state := { e.initial with pts := m0.startTime, nextPts := m0.startTime }
          frameDuration := Dbl.div (Dbl.fin 1) (Dbl.max m0.frameRate m1.frameRate)
          hasAudioOutput := !config.disableAudio && e.hasAudio && e.outputCreated
          trace := [] } := by
      simp only [VivictPP.new, hm0, h1, if_false, hm1]
    refine ⟨_, h, rfl, rfl, rfl, ?_⟩
    intro r0 r1 hr0 hr1 hne
    simp only [hr0, hr1, dbl_max_fin]
    exact dbl_div_one_fin _ hne

/-- Witness for C13: two sources starting at 0 with 25 frames per second give `pts = 0`
and a frame duration of 1/25. -/
theorem constructor_start_witness :
    ∃ v : VivictPP, VivictPP.new VivictPPConfig.sample Startup.sample = some v
      ∧ v.state.pts = Dbl.fin 0 ∧ v.state.nextPts = Dbl.fin 0
      ∧ v.frameDuration = Dbl.fin (1 / 25) := by
  obtain ⟨v, h1, h2, h3, _, h5⟩ := (constructor_start VivictPPConfig.sample Startup.sample
    { startTime := Dbl.fin 0, frameRate := Dbl.fin 25 } rfl).2 (by decide)
    { startTime := Dbl.fin 0, frameRate := Dbl.fin 25 } rfl
  refine ⟨v, h1, h2, h3, ?_⟩
  rw [h5 25 25 rfl rfl (by norm_num)]
  norm_num

end Vivictpp
